import Mathlib

/-
Verification development for the bullet-heaven game sources.

Conventions of the embedding:
* f32 values of the source are idealised as exact rationals.
* entity ids are natural numbers.
* the Euclidean distance comparison `distance < r` of the source is
  modelled by the equivalent comparison of the squares, which keeps
  every predicate decidable over the rationals; theorems relate the
  tests to a nonnegative distance value d with d ^ 2 equal to the
  squared distance.
* deferred Bevy commands (despawn requests, spawns) are modelled as
  explicit lists of requests accumulated while a system runs; they do
  not alter the live queries until a frame boundary is applied.
-/

set_option maxHeartbeats 1000000

namespace BHG

/-- Two dimensional vector over the rationals (models bevy Vec2). -/
structure Vec2Q where
  x : ℚ
  y : ℚ
deriving DecidableEq, Repr

/-- Squared Euclidean distance between two points. -/
def dist2 (a b : Vec2Q) : ℚ := (a.x - b.x) ^ 2 + (a.y - b.y) ^ 2

/-- Circular collision test of the source systems: the source compares
the Euclidean distance of the centers against r1 + r2 with a strict
less-than; comparing squares is equivalent for nonnegative radii. -/
def circle_hit (p q : Vec2Q) (r1 r2 : ℚ) : Bool :=
  decide (dist2 p q < (r1 + r2) ^ 2)

/-- bullet.rs BULLET_SIZE. -/
def BULLET_SIZE : Vec2Q := ⟨10, 10⟩

/-- player.rs PLAYER_SIZE. -/
def PLAYER_SIZE : Vec2Q := ⟨50, 50⟩

/-- weapons.rs ORBITER_SPRITE_SIZE. -/
def ORBITER_SPRITE_SIZE : Vec2Q := ⟨32, 32⟩

/-- enemy.rs SPITTER_PROJECTILE_SIZE_DEBUG, the size used for enemy
projectile collision. -/
def SPITTER_PROJECTILE_SIZE : Vec2Q := ⟨25, 25⟩

/-- enemy.rs ENEMY_GRUNT_SIZE. -/
def ENEMY_GRUNT_SIZE : Vec2Q := ⟨40, 40⟩

/-- bullet.rs BASE_BULLET_DAMAGE. -/
def BASE_BULLET_DAMAGE : ℤ := 10

/-- Collision test of bullet_collision_system (bullet.rs lines 116-121):
bullet radius is BULLET_SIZE.x / 2, enemy radius is size.x / 2. -/
def bullet_enemy_collides (bpos epos : Vec2Q) (enemySizeX : ℚ) : Bool :=
  circle_hit bpos epos (BULLET_SIZE.x / 2) (enemySizeX / 2)

/-- Collision test of skill_projectile_collision_system (skills.rs lines
211-221): projectile radius is the larger sprite dimension halved, the
horror radius is size.x / 2. -/
def skill_projectile_collides (ppos : Vec2Q) (psize : Vec2Q) (hpos : Vec2Q)
    (horrorSizeX : ℚ) : Bool :=
  circle_hit ppos hpos (max psize.x psize.y / 2) (horrorSizeX / 2)

/-- Collision test of enemy_projectile_collision_system (enemy.rs lines
336-342). -/
def enemy_projectile_player_collides (prpos plpos : Vec2Q) : Bool :=
  circle_hit prpos plpos (SPITTER_PROJECTILE_SIZE.x / 2) (PLAYER_SIZE.x / 2)

/-- Collision test of player_enemy_collision_system (player.rs lines
263-267). -/
def player_enemy_collides (plpos epos : Vec2Q) (enemySizeX : ℚ) : Bool :=
  circle_hit plpos epos (PLAYER_SIZE.x / 2) (enemySizeX / 2)

/-- Collision test of orbiter_collision_system (weapons.rs lines
326-337). -/
def orbiter_enemy_collides (opos epos : Vec2Q) (enemySizeX : ℚ) : Bool :=
  circle_hit opos epos (ORBITER_SPRITE_SIZE.x / 2) (enemySizeX / 2)

/-- Radius test of aoe_aura_weapon_system (weapons.rs lines 107-112):
the squared center distance is compared against the squared aura radius
alone; the enemy bounding box plays no part in this test. -/
def aura_hits_enemy (ppos epos : Vec2Q) (radius : ℚ) : Bool :=
  decide (dist2 ppos epos < radius ^ 2)

/-
Timer model. Bevy timers hold an elapsed accumulator, a duration and a
paused flag; `finished` reads true once the accumulator reaches the
duration, `reset` clears the accumulator, `tick` advances it unless
paused. The one-shot clamp of the accumulator is irrelevant to every
property below, which only reads `finished`.
-/

/-- Bevy Timer as used by the sources: elapsed accumulator, duration,
paused flag. -/
structure TimerM where
  elapsed : ℚ
  duration : ℚ
  paused : Bool
deriving DecidableEq, Repr

/-- Timer::from_seconds gives a fresh unpaused timer with a zero
accumulator. -/
def TimerM.from_seconds (d : ℚ) : TimerM := ⟨0, d, false⟩

/-- Timer::finished. -/
def TimerM.finished (t : TimerM) : Bool := decide (t.duration ≤ t.elapsed)

/-- Timer::reset clears the accumulator. -/
def TimerM.reset (t : TimerM) : TimerM := { t with elapsed := 0 }

/-- Timer::tick advances the accumulator unless the timer is paused. -/
def TimerM.tick (t : TimerM) (d : ℚ) : TimerM :=
  if t.paused then t else { t with elapsed := t.elapsed + d }

/-- Timer::set_duration. -/
def TimerM.set_duration (t : TimerM) (d : ℚ) : TimerM := { t with duration := d }

/-- Timer::pause. -/
def TimerM.pause (t : TimerM) : TimerM := { t with paused := true }

/-- Timer::unpause. -/
def TimerM.unpause (t : TimerM) : TimerM := { t with paused := false }

/-
Player invincibility and the two player-damaging collision systems
(player.rs player_enemy_collision_system, enemy.rs
enemy_projectile_collision_system).
-/

/-- The player components read by the collision systems: current Health
and the Player invincibility timer. -/
structure PlayerInv where
  health : ℤ
  invincibility_timer : TimerM
deriving DecidableEq, Repr

/-- player.rs spawn_player, restricted to the components the collision
systems read: Health(100) and a fresh once timer of 1.0 seconds. -/
def spawn_player : PlayerInv :=
  { health := 100
    invincibility_timer := TimerM.from_seconds 1 }

/-- An enemy as read by player_enemy_collision_system: position, size
and contact damage. -/
structure EnemyContact where
  pos : Vec2Q
  sizeX : ℚ
  damage_on_collision : ℤ
deriving DecidableEq, Repr

/-- An enemy projectile as read by enemy_projectile_collision_system:
entity id, position and Damage. -/
structure EnemyProjectile where
  id : ℕ
  pos : Vec2Q
  damage : ℤ
deriving DecidableEq, Repr

/-- Inner loop of player_enemy_collision_system (player.rs lines
262-274): each contacting enemy damages the player and resets the
invincibility timer only when the timer reads finished at that point. -/
def player_enemy_loop (plpos : Vec2Q) (p : PlayerInv) :
    List EnemyContact → PlayerInv
  | [] => p
  | e :: rest =>
    if player_enemy_collides plpos e.pos e.sizeX then
      if p.invincibility_timer.finished then
        player_enemy_loop plpos
          { health := p.health - e.damage_on_collision
            invincibility_timer := p.invincibility_timer.reset } rest
      else
        player_enemy_loop plpos p rest
    else
      player_enemy_loop plpos p rest

/-- player.rs player_enemy_collision_system: early return while the
invincibility timer is unfinished, otherwise the contact loop. -/
def player_enemy_collision_system (plpos : Vec2Q) (p : PlayerInv)
    (enemies : List EnemyContact) : PlayerInv :=
  if p.invincibility_timer.finished then player_enemy_loop plpos p enemies
  else p

/-- enemy.rs enemy_projectile_collision_system: every projectile that
touches the player is despawned; damage and the timer reset only happen
when the invincibility timer reads finished at contact time. Returns
the player state and the despawn requests issued. -/
def enemy_projectile_collision_system (plpos : Vec2Q) (p : PlayerInv) :
    List EnemyProjectile → PlayerInv × List ℕ
  | [] => (p, [])
  | pr :: rest =>
    if enemy_projectile_player_collides pr.pos plpos then
      let p1 :=
        if p.invincibility_timer.finished then
          { health := p.health - pr.damage
            invincibility_timer := p.invincibility_timer.reset }
        else p
      let r := enemy_projectile_collision_system plpos p1 rest
      (r.1, pr.id :: r.2)
    else
      enemy_projectile_collision_system plpos p rest

/-- player.rs player_invincibility_system, restricted to the timer
bookkeeping: dead players are skipped, an unfinished timer is advanced
by the frame delta, a finished timer is left alone. -/
def player_invincibility_system (p : PlayerInv) (delta : ℚ) : PlayerInv :=
  if p.health ≤ 0 then p
  else if p.invincibility_timer.finished then p
  else { p with invincibility_timer := p.invincibility_timer.tick delta }

/-
Experience and leveling (player.rs XP_FOR_LEVEL, Player::add_experience).
-/

/-- player.rs XP_FOR_LEVEL. -/
def XP_FOR_LEVEL : List ℕ :=
  [100, 150, 250, 400, 600, 850, 1100, 1400, 1800, 2500]

/-- The Player fields read and written by add_experience. -/
structure PlayerXp where
  experience : ℕ
  current_level_xp : ℕ
  level : ℕ
  xp_gain_multiplier : ℚ
deriving DecidableEq, Repr

/-- player.rs Player::experience_to_next_level. -/
def experience_to_next_level (p : PlayerXp) : ℕ :=
  if p.level = 0 then 0
  else if p.level - 1 < XP_FOR_LEVEL.length then XP_FOR_LEVEL.getD (p.level - 1) 0
  else XP_FOR_LEVEL.getLastD 2500 + (p.level - XP_FOR_LEVEL.length) * 500

/-- The actual_xp_gained computation of add_experience: the amount is
scaled by the gain multiplier and rounded. Rounding is half-up, which
agrees with the f32 half-away-from-zero rounding on the nonnegative
products that occur here; the u32 cast clamps negatives to zero. -/
def scaled_gain (p : PlayerXp) (amount : ℕ) : ℕ :=
  (round ((amount : ℚ) * p.xp_gain_multiplier)).toNat

/-- The crediting step of add_experience, before the level loop. -/
def credit_xp (p : PlayerXp) (amount : ℕ) : PlayerXp :=
  { p with
    current_level_xp := p.current_level_xp + scaled_gain p amount
    experience := p.experience + scaled_gain p amount }

/-- player.rs Player::add_experience. The source while loop queues the
LevelUp state and then unconditionally breaks, so at most one iteration
runs; the second component counts the LevelUp transitions queued by the
call. -/
def add_experience (p : PlayerXp) (amount : ℕ) : PlayerXp × ℕ :=
  if experience_to_next_level (credit_xp p amount) ≤
      (credit_xp p amount).current_level_xp ∧ 0 < (credit_xp p amount).level then
    ({ credit_xp p amount with
        current_level_xp := (credit_xp p amount).current_level_xp -
          experience_to_next_level (credit_xp p amount)
        level := (credit_xp p amount).level + 1 }, 1)
  else (credit_xp p amount, 0)

/-
Wave and difficulty scaling (game.rs difficulty_scaling_system).
-/

/-- game.rs INITIAL_MAX_ENEMIES. -/
def INITIAL_MAX_ENEMIES : ℕ := 20

/-- game.rs MAX_ENEMIES_INCREMENT. -/
def MAX_ENEMIES_INCREMENT : ℕ := 10

/-- game.rs SPAWN_INTERVAL_DECREMENT_FACTOR. -/
def SPAWN_INTERVAL_DECREMENT_FACTOR : ℚ := 9 / 10

/-- game.rs MIN_SPAWN_INTERVAL_SECONDS. -/
def MIN_SPAWN_INTERVAL_SECONDS : ℚ := 3 / 10

/-- game.rs INITIAL_SPAWN_INTERVAL_SECONDS. -/
def INITIAL_SPAWN_INTERVAL_SECONDS : ℚ := 2

/-- game.rs DIFFICULTY_INCREASE_INTERVAL_SECONDS. -/
def DIFFICULTY_INCREASE_INTERVAL_SECONDS : ℚ := 30

/-- Tick of a repeating bevy timer: the accumulator advances unless
paused, the boolean reports just_finished, and on finishing the excess
wraps modulo the duration. -/
def TimerM.tick_repeating (t : TimerM) (d : ℚ) : TimerM × Bool :=
  if t.paused then (t, false)
  else
    let e := t.elapsed + d
    if t.duration ≤ e then
      ({ t with elapsed := e - t.duration * (⌊e / t.duration⌋ : ℤ) }, true)
    else ({ t with elapsed := e }, false)

/-- The resources touched by difficulty_scaling_system: the wave
counter and difficulty timer of GameState, the duration of the
EnemySpawnTimer, and the MaxEnemies cap. -/
structure DifficultyState where
  wave_number : ℕ
  difficulty_timer : TimerM
  spawn_interval : ℚ
  max_enemies : ℕ
deriving DecidableEq, Repr

/-- game.rs difficulty_scaling_system: a paused difficulty timer is
left untouched; otherwise the timer ticks, and when it just finished
the wave counter increments, the enemy cap is recomputed from the new
wave number capped at 200, and the spawn interval shrinks by the decay
factor down to the floor. -/
def difficulty_scaling_system (s : DifficultyState) (delta : ℚ) :
    DifficultyState :=
  if s.difficulty_timer.paused then s
  else
    let td := s.difficulty_timer.tick_repeating delta
    if td.2 then
      { wave_number := s.wave_number + 1
        difficulty_timer := td.1
        max_enemies :=
          min (INITIAL_MAX_ENEMIES +
            (s.wave_number + 1 - 1) * MAX_ENEMIES_INCREMENT) 200
        spawn_interval :=
          max (s.spawn_interval * SPAWN_INTERVAL_DECREMENT_FACTOR)
            MIN_SPAWN_INTERVAL_SECONDS }
    else { s with difficulty_timer := td.1 }

/-
Game phase transitions and session reset (game.rs AppState,
reset_for_new_game_session, main_menu_input_system,
game_over_input_system).
-/

/-- game.rs AppState. -/
inductive AppStateM where
  | MainMenu
  | InGame
  | LevelUp
  | GameOver
  | DebugUpgradeMenu
deriving DecidableEq, Repr

/-- player.rs INITIAL_PLAYER_MAX_HEALTH. -/
def INITIAL_PLAYER_MAX_HEALTH : ℤ := 100

/-- weapons.rs AoeAuraWeapon (visual entity id kept as an opaque
option). -/
structure AoeAuraWeapon where
  damage_tick_timer : TimerM
  current_radius : ℚ
  base_damage_per_tick : ℤ
  is_active : Bool
  visual_entity : Option ℕ
deriving DecidableEq, Repr

/-- weapons.rs AoeAuraWeapon::default. -/
def AoeAuraWeapon.default : AoeAuraWeapon :=
  { damage_tick_timer := TimerM.from_seconds (1 / 2)
    current_radius := 75
    base_damage_per_tick := 3
    is_active := false
    visual_entity := none }

/-- weapons.rs OrbitingProjectileWeapon. The rotation speed is recorded
in units of pi radians per second. -/
structure OrbitingProjectileWeapon where
  is_active : Bool
  num_orbiters : ℕ
  orbit_radius : ℚ
  rotation_speed : ℚ
  damage_per_hit : ℤ
  hit_cooldown_duration : ℚ
deriving DecidableEq, Repr

/-- weapons.rs OrbitingProjectileWeapon::default; PI / 2 radians per
second is 1 / 2 in units of pi. -/
def OrbitingProjectileWeapon.default : OrbitingProjectileWeapon :=
  { is_active := false
    num_orbiters := 0
    orbit_radius := 80
    rotation_speed := 1 / 2
    damage_per_hit := 5
    hit_cooldown_duration := 3 / 4 }

/-- The player components handled by reset_for_new_game_session:
Player, Health, BasicWeapon, AoeAuraWeapon and
OrbitingProjectileWeapon. -/
structure PlayerSession where
  speed : ℚ
  experience : ℕ
  current_level_xp : ℕ
  level : ℕ
  bullet_damage_bonus : ℤ
  projectile_speed_multiplier : ℚ
  projectile_piercing : ℕ
  xp_gain_multiplier : ℚ
  pickup_radius_multiplier : ℚ
  additional_projectiles : ℕ
  max_health : ℤ
  health_regen_rate : ℚ
  health : ℤ
  fire_rate : TimerM
  aoe_aura : AoeAuraWeapon
  orbiting : OrbitingProjectileWeapon
deriving DecidableEq, Repr

/-- The GameState resource fields touched by the reset. -/
structure GameStateR where
  score : ℕ
  wave_number : ℕ
  enemy_count : ℕ
  game_timer : TimerM
  difficulty_timer : TimerM
deriving DecidableEq, Repr

/-- The full session state threaded through the reset: the GameState
resource, the enemy spawn timer, the enemy cap and the optional player
entity. -/
structure SessionState where
  game_state : GameStateR
  enemy_spawn_timer : TimerM
  max_enemies : ℕ
  player : Option PlayerSession
deriving DecidableEq, Repr

/-- The player half of reset_for_new_game_session (game.rs lines
120-136). Speed is not touched by the source. -/
def reset_player_stats (p : PlayerSession) : PlayerSession :=
  { p with
    experience := 0
    current_level_xp := 0
    level := 1
    bullet_damage_bonus := 0
    projectile_speed_multiplier := 1
    projectile_piercing := 0
    xp_gain_multiplier := 1
    pickup_radius_multiplier := 1
    additional_projectiles := 0
    max_health := INITIAL_PLAYER_MAX_HEALTH
    health_regen_rate := 0
    health := INITIAL_PLAYER_MAX_HEALTH
    fire_rate := TimerM.from_seconds (1 / 2)
    aoe_aura := AoeAuraWeapon.default
    orbiting := OrbitingProjectileWeapon.default }

/-- game.rs reset_for_new_game_session. -/
def reset_for_new_game_session (s : SessionState) : SessionState :=
  { game_state :=
      { score := 0
        wave_number := 1
        enemy_count := 0
        game_timer := ((TimerM.from_seconds 3600).reset).unpause
        difficulty_timer :=
          (TimerM.from_seconds DIFFICULTY_INCREASE_INTERVAL_SECONDS).reset }
    enemy_spawn_timer :=
      (s.enemy_spawn_timer.set_duration INITIAL_SPAWN_INTERVAL_SECONDS).reset
    max_enemies := INITIAL_MAX_ENEMIES
    player := s.player.map reset_player_stats }

/-- Observable outcome of an input system run: the session state after
the run, the queued next app state and whether the player entity was
despawned. -/
structure InputOutcome where
  session : SessionState
  next : Option AppStateM
  despawned_player : Bool
deriving DecidableEq, Repr

/-- game.rs main_menu_input_system: on the space key the player entity
is despawned, the session is reset and InGame is queued. -/
def main_menu_input_system (space_pressed : Bool) (s : SessionState) :
    InputOutcome :=
  if space_pressed then
    ⟨reset_for_new_game_session s, some AppStateM.InGame, true⟩
  else ⟨s, none, false⟩

/-- game.rs game_over_input_system: on the R key the player entity is
despawned, the session is reset and MainMenu is queued. -/
def game_over_input_system (r_pressed : Bool) (s : SessionState) :
    InputOutcome :=
  if r_pressed then
    ⟨reset_for_new_game_session s, some AppStateM.MainMenu, true⟩
  else ⟨s, none, false⟩

/-
Orbiter reconciliation (weapons.rs manage_orbiters_system).
-/

/-- weapons.rs manage_orbiters_system for the orbiter children of one
player. The Changed query filter is the changed flag: when the weapon
component was not written this frame the system does not visit the
player at all. Orbiters are listed by their angle offset in units of pi
radians; the source works in radians with the factor 2 * PI / max(n, 1).
When the weapon is inactive every orbiter child despawns; a deficit
spawns at angles (live + i) * (2 pi / max(target, 1)) continuing past
the live count; a surplus despawns the first children in iteration
order. -/
def manage_orbiters_system (changed : Bool) (w : OrbitingProjectileWeapon)
    (orbiters : List ℚ) : List ℚ :=
  if ¬changed then orbiters
  else if ¬w.is_active then []
  else if orbiters.length < w.num_orbiters then
    orbiters ++ (List.range (w.num_orbiters - orbiters.length)).map
      (fun i => ((orbiters.length + i : ℕ) : ℚ) *
        (2 / ((max w.num_orbiters 1 : ℕ) : ℚ)))
  else if w.num_orbiters < orbiters.length then
    orbiters.drop (orbiters.length - w.num_orbiters)
  else orbiters

/-
Player bullet collisions (bullet.rs bullet_collision_system).
-/

/-- An enemy as read by bullet_collision_system: entity id, position,
Health and bounding box width. -/
structure Enemy where
  id : ℕ
  pos : Vec2Q
  health : ℤ
  sizeX : ℚ
deriving DecidableEq, Repr

/-- A player bullet: entity id, position, Damage and the remaining
pierce counter stored on the Bullet component. -/
structure Bullet where
  id : ℕ
  pos : Vec2Q
  damage : ℤ
  piercing_left : ℕ
deriving DecidableEq, Repr

/-- Side effects accumulated by bullet_collision_system: score added to
GameState, experience orbs spawned (by spawn position), death and hit
sound events, and the enemy despawn requests issued as deferred
commands. -/
structure BulletEffects where
  score : ℕ
  orbs : List Vec2Q
  death_sounds : ℕ
  hit_sounds : ℕ
  despawned : List ℕ
deriving DecidableEq, Repr

/-- No effects. -/
def BulletEffects.empty : BulletEffects := ⟨0, [], 0, 0, []⟩

/-- Effects of two stretches of the run, in order. -/
def BulletEffects.append (e f : BulletEffects) : BulletEffects :=
  ⟨e.score + f.score, e.orbs ++ f.orbs, e.death_sounds + f.death_sounds,
    e.hit_sounds + f.hit_sounds, e.despawned ++ f.despawned⟩

/-- Result of one bullet sweeping the enemy query: the enemy list with
its health mutations (despawned enemies stay listed, as despawning is a
deferred command), the ids the bullet damaged in order, the side
effects, and the remaining pierce counter when the bullet survived the
sweep. -/
structure BulletPass where
  enemies : List Enemy
  hits : List ℕ
  eff : BulletEffects
  survives : Option ℕ
deriving DecidableEq, Repr

/-- Inner loop of bullet_collision_system (bullet.rs lines 109-150) for
one bullet: the already-hit list is the per-frame vector created at the
start of the sweep. On a hit, damage lands, the hit is recorded, death
handling fires when the updated health is at or below zero (score,
orb spawn at the last known local translation, death sound, deferred
despawn), then the pierce counter decides between continuing and
despawning the bullet. -/
def bullet_pass (bpos : Vec2Q) (dmg : ℤ) :
    ℕ → List ℕ → List Enemy → BulletPass
  | piercing, _, [] => ⟨[], [], BulletEffects.empty, some piercing⟩
  | piercing, alreadyHit, e :: rest =>
    if e.id ∈ alreadyHit then
      let r := bullet_pass bpos dmg piercing alreadyHit rest
      { r with enemies := e :: r.enemies }
    else if bullet_enemy_collides bpos e.pos e.sizeX then
      let eHit : Enemy := { e with health := e.health - dmg }
      let hitEff : BulletEffects :=
        if eHit.health ≤ 0 then ⟨10, [e.pos], 1, 1, [e.id]⟩
        else ⟨0, [], 0, 1, []⟩
      if 0 < piercing then
        let r := bullet_pass bpos dmg (piercing - 1) (alreadyHit ++ [e.id]) rest
        ⟨eHit :: r.enemies, e.id :: r.hits,
          BulletEffects.append hitEff r.eff, r.survives⟩
      else
        ⟨eHit :: rest, [e.id], hitEff, none⟩
    else
      let r := bullet_pass bpos dmg piercing alreadyHit rest
      { r with enemies := e :: r.enemies }

/-- bullet.rs bullet_collision_system over all live bullets: each
bullet sweeps the enemy query with a fresh per-frame already-hit list;
enemy health mutations persist across bullets within the frame while
despawns stay deferred. Returns the bullets surviving the frame, the
enemy list, the summed effects, and the per-bullet damage lists. -/
def bullet_collision_system :
    List Bullet → List Enemy →
      List Bullet × List Enemy × BulletEffects × List (ℕ × List ℕ)
  | [], enemies => ([], enemies, BulletEffects.empty, [])
  | b :: bs, enemies =>
    let r := bullet_pass b.pos b.damage b.piercing_left [] enemies
    let rec2 := bullet_collision_system bs r.enemies
    (match r.survives with
      | some pl => { b with piercing_left := pl } :: rec2.1
      | none => rec2.1,
      rec2.2.1, BulletEffects.append r.eff rec2.2.2.1,
      (b.id, r.hits) :: rec2.2.2.2)

/-- Frame boundary: the deferred enemy despawn commands are applied. -/
def apply_despawns (enemies : List Enemy) (despawned : List ℕ) : List Enemy :=
  enemies.filter (fun e => decide (e.id ∉ despawned))

/-
Skill projectile collisions and chaining (skills.rs
skill_projectile_collision_system).
-/

/-- A horror as read by skill_projectile_collision_system: entity id,
position, Health and bounding box width. -/
structure Horror where
  id : ℕ
  pos : Vec2Q
  health : ℤ
  sizeX : ℚ
deriving DecidableEq, Repr

/-- skills.rs SkillProjectile together with the sprite size and Damage
component of the projectile entity. The aim field records the direction
vector toward the target before normalisation; the source stores
Velocity(normalize_or_zero(aim) * speed), a positive rescale of aim. -/
structure SkillProjectile where
  pos : Vec2Q
  size : Vec2Q
  aim : Vec2Q
  damage : ℤ
  piercing_left : ℕ
  bounces_left : ℕ
  already_hit : List ℕ
deriving DecidableEq, Repr

/-- The data of a SkillEffectType::Projectile definition consulted when
chaining, as resolved through the equipped skill instance and the skill
library; a missing instance, missing definition or non-projectile
effect is the none case of the lookup. -/
structure ProjectileSkillDef where
  speed : ℚ
  size : Vec2Q
  lifetime_secs : ℚ
  piercing : ℕ
deriving DecidableEq, Repr

/-- A chain candidate for the bounce search: not the horror just hit,
not already hit by this projectile, and within the 250-unit chain
radius of the hit position. -/
def chain_candidate (alreadyHit : List ℕ) (hitId : ℕ) (hitPos : Vec2Q)
    (x : Horror) : Prop :=
  x.id ≠ hitId ∧ x.id ∉ alreadyHit ∧ dist2 x.pos hitPos < 250 ^ 2

instance (alreadyHit : List ℕ) (hitId : ℕ) (hitPos : Vec2Q) (x : Horror) :
    Decidable (chain_candidate alreadyHit hitId hitPos x) := by
  unfold chain_candidate
  infer_instance

/-- The closest_new_target fold of the chain search (skills.rs lines
233-247): walk every horror, skip the one just hit and the already-hit
ones, and keep the strictly closest squared distance below the squared
chain radius. The horror record is carried where the source carries the
entity id and refetches the transform. -/
def chain_fold (alreadyHit : List ℕ) (hitId : ℕ) (hitPos : Vec2Q) :
    Option (Horror × ℚ) → List Horror → Option (Horror × ℚ)
  | best, [] => best
  | best, h :: rest =>
    if h.id = hitId ∨ h.id ∈ alreadyHit then
      chain_fold alreadyHit hitId hitPos best rest
    else if dist2 h.pos hitPos < 250 ^ 2 then
      match best with
      | none => chain_fold alreadyHit hitId hitPos (some (h, dist2 h.pos hitPos)) rest
      | some b =>
        if dist2 h.pos hitPos < b.2 then
          chain_fold alreadyHit hitId hitPos (some (h, dist2 h.pos hitPos)) rest
        else chain_fold alreadyHit hitId hitPos best rest
    else chain_fold alreadyHit hitId hitPos best rest

/-- The chain target selected after a bounce-consuming hit. -/
def chain_target (alreadyHit : List ℕ) (hitId : ℕ) (hitPos : Vec2Q)
    (horrors : List Horror) : Option (Horror × ℚ) :=
  chain_fold alreadyHit hitId hitPos none horrors

/-- The chained projectile spawned at the hit position toward the
selected target (skills.rs lines 249-283): it carries the original
Damage, the piercing of the skill definition, the remaining bounce
count after the consumed bounce, and an already-hit list holding just
the new target. Nothing spawns when the skill lookup fails. -/
def spawn_chained (lookup : Option ProjectileSkillDef) (p : SkillProjectile)
    (bouncesLeft : ℕ) (hitPos : Vec2Q) (target : Horror) :
    List SkillProjectile :=
  match lookup with
  | some dfn =>
    [{ pos := hitPos
       size := dfn.size
       aim := ⟨target.pos.x - hitPos.x, target.pos.y - hitPos.y⟩
       damage := p.damage
       piercing_left := dfn.piercing
       bounces_left := bouncesLeft
       already_hit := [target.id] }]
  | none => []

/-- Result of one projectile sweeping the horror query: the horrors
with their health mutations, the ids damaged in order, the chained
successors spawned, and the projectile state when it survived the
sweep (none when a despawn request was issued). -/
structure SkillPass where
  horrors : List Horror
  hits : List ℕ
  successors : List SkillProjectile
  outcome : Option SkillProjectile
deriving DecidableEq, Repr

/-- Inner loop of skill_projectile_collision_system (skills.rs lines
214-291): horrors in the persistent already-hit list are skipped; a hit
damages, records the target, then consumes pierce, else consumes a
bounce (chaining over the full query and despawning), else despawns.
The full horror list is the query iterated by the chain search. -/
def skill_pass (lookup : Option ProjectileSkillDef) (allHorrors : List Horror)
    (p : SkillProjectile) : List Horror → SkillPass
  | [] => ⟨[], [], [], some p⟩
  | h :: rest =>
    if h.id ∈ p.already_hit then
      let r := skill_pass lookup allHorrors p rest
      { r with horrors := h :: r.horrors }
    else if skill_projectile_collides p.pos p.size h.pos h.sizeX then
      let hHit : Horror := { h with health := h.health - p.damage }
      if 0 < p.piercing_left then
        let r := skill_pass lookup allHorrors
          { p with
            piercing_left := p.piercing_left - 1
            already_hit := p.already_hit ++ [h.id] } rest
        ⟨hHit :: r.horrors, h.id :: r.hits, r.successors, r.outcome⟩
      else if 0 < p.bounces_left then
        let succ :=
          match chain_target (p.already_hit ++ [h.id]) h.id h.pos allHorrors with
          | some t => spawn_chained lookup p (p.bounces_left - 1) h.pos t.1
          | none => []
        ⟨hHit :: rest, [h.id], succ, none⟩
      else
        ⟨hHit :: rest, [h.id], [], none⟩
    else
      let r := skill_pass lookup allHorrors p rest
      { r with horrors := h :: r.horrors }

/-- skills.rs skill_projectile_collision_system for one projectile and
one frame: the runaway-chain safety check despawns outright when the
recorded hits exceed pierce + bounces + 5, otherwise the projectile
sweeps the horror query. -/
def skill_projectile_collision_step (lookup : Option ProjectileSkillDef)
    (p : SkillProjectile) (horrors : List Horror) : SkillPass :=
  if p.piercing_left + p.bounces_left + 5 < p.already_hit.length then
    ⟨horrors, [], [], none⟩
  else skill_pass lookup horrors p horrors

/-- The damage record of one projectile across its whole lifetime: the
horror lists of successive frames are arbitrary, the projectile state
carries over, and the run stops when the projectile despawns. -/
def skill_run_frames (lookup : Option ProjectileSkillDef) :
    SkillProjectile → List (List Horror) → List ℕ
  | _, [] => []
  | p, hs :: rest =>
    let r := skill_projectile_collision_step lookup p hs
    match r.outcome with
    | some q => r.hits ++ skill_run_frames lookup q rest
    | none => r.hits

lemma lt_iff_sq_lt {d s : ℚ} (hd : 0 ≤ d) (hs : 0 ≤ s) :
    d < s ↔ d ^ 2 < s ^ 2 := by
  constructor
  · intro h
    exact pow_lt_pow_left₀ h hd (by norm_num)
  · intro h
    exact lt_of_pow_lt_pow_left₀ 2 hs h

lemma circle_hit_iff {p q : Vec2Q} {r1 r2 d : ℚ} (hd : 0 ≤ d)
    (hdist : d ^ 2 = dist2 p q) (h1 : 0 ≤ r1) (h2 : 0 ≤ r2) :
    circle_hit p q r1 r2 = true ↔ d < r1 + r2 := by
  unfold circle_hit
  rw [decide_eq_true_iff, ← hdist]
  exact (lt_iff_sq_lt hd (by linarith)).symm

lemma player_enemy_loop_not_finished (plpos : Vec2Q) (p : PlayerInv)
    (enemies : List EnemyContact)
    (h : p.invincibility_timer.finished = false) :
    player_enemy_loop plpos p enemies = p := by
  induction enemies with
  | nil => rfl
  | cons e rest ih =>
    unfold player_enemy_loop
    rw [h]
    by_cases hc : player_enemy_collides plpos e.pos e.sizeX
    · simp [hc, ih]
    · simp [hc, ih]

lemma enemy_projectile_loop_not_finished (plpos : Vec2Q) (p : PlayerInv)
    (projs : List EnemyProjectile)
    (h : p.invincibility_timer.finished = false) :
    (enemy_projectile_collision_system plpos p projs).1 = p := by
  induction projs with
  | nil => rfl
  | cons pr rest ih =>
    unfold enemy_projectile_collision_system
    rw [h]
    by_cases hc : enemy_projectile_player_collides pr.pos plpos
    · simp [hc, ih]
    · simp [hc, ih]

lemma enemy_projectile_despawns_all (plpos : Vec2Q) (p : PlayerInv)
    (projs : List EnemyProjectile) :
    (enemy_projectile_collision_system plpos p projs).2 =
      (projs.filter (fun pr => enemy_projectile_player_collides pr.pos plpos)).map
        EnemyProjectile.id := by
  induction projs generalizing p with
  | nil => rfl
  | cons pr rest ih =>
    unfold enemy_projectile_collision_system
    by_cases hc : enemy_projectile_player_collides pr.pos plpos
    · simp [hc, List.filter_cons, ih]
    · simp [hc, List.filter_cons, ih]

lemma reset_not_finished {t : TimerM} (h : 0 < t.duration) :
    t.reset.finished = false := by
  simp [TimerM.reset, TimerM.finished, not_le, h]

lemma enemy_projectile_first_hit (plpos : Vec2Q) (p : PlayerInv)
    (projs : List EnemyProjectile)
    (hfin : p.invincibility_timer.finished = true)
    (hdur : 0 < p.invincibility_timer.duration) :
    (enemy_projectile_collision_system plpos p projs).1 =
      match projs.find? (fun pr => enemy_projectile_player_collides pr.pos plpos) with
      | none => p
      | some pr =>
        { health := p.health - pr.damage
          invincibility_timer := p.invincibility_timer.reset } := by
  induction projs with
  | nil => rfl
  | cons pr rest ih =>
    unfold enemy_projectile_collision_system
    by_cases hc : enemy_projectile_player_collides pr.pos plpos
    · simp only [List.find?_cons, hc, if_true, hfin, if_pos]
      exact enemy_projectile_loop_not_finished plpos _ rest
        (reset_not_finished hdur)
    · simp only [List.find?_cons, hc, Bool.false_eq_true, if_false]
      exact ih

lemma player_enemy_first_hit (plpos : Vec2Q) (p : PlayerInv)
    (enemies : List EnemyContact)
    (hfin : p.invincibility_timer.finished = true)
    (hdur : 0 < p.invincibility_timer.duration) :
    player_enemy_loop plpos p enemies =
      match enemies.find? (fun e => player_enemy_collides plpos e.pos e.sizeX) with
      | none => p
      | some e =>
        { health := p.health - e.damage_on_collision
          invincibility_timer := p.invincibility_timer.reset } := by
  induction enemies with
  | nil => rfl
  | cons e rest ih =>
    unfold player_enemy_loop
    by_cases hc : player_enemy_collides plpos e.pos e.sizeX
    · simp only [List.find?_cons, hc, if_true, hfin, if_pos]
      exact player_enemy_loop_not_finished plpos _ rest (reset_not_finished hdur)
    · simp only [List.find?_cons, hc, Bool.false_eq_true, if_false]
      exact ih

/-- C4: for every enemy-vs-player contact and enemy-projectile-vs-player
contact, damage is applied and the invincibility timer reset only when
the timer reads finished: every colliding projectile is despawned
regardless, an unfinished timer blocks all damage in both systems, and
when the timer reads finished the first landing contact subtracts its
damage and resets the timer to a fresh accumulator. -/
theorem C4_invincibility_gate (plpos : Vec2Q) (p : PlayerInv)
    (projs : List EnemyProjectile) (enemies : List EnemyContact)
    (hdur : 0 < p.invincibility_timer.duration) :
    ((enemy_projectile_collision_system plpos p projs).2 =
        (projs.filter (fun pr => enemy_projectile_player_collides pr.pos plpos)).map
          EnemyProjectile.id)
    ∧ (p.invincibility_timer.finished = false →
        (enemy_projectile_collision_system plpos p projs).1 = p ∧
          player_enemy_collision_system plpos p enemies = p)
    ∧ (p.invincibility_timer.finished = true →
        (enemy_projectile_collision_system plpos p projs).1 =
          match projs.find? (fun pr => enemy_projectile_player_collides pr.pos plpos) with
          | none => p
          | some pr =>
            { health := p.health - pr.damage
              invincibility_timer := p.invincibility_timer.reset })
    ∧ (p.invincibility_timer.finished = true →
        player_enemy_collision_system plpos p enemies =
          match enemies.find? (fun e => player_enemy_collides plpos e.pos e.sizeX) with
          | none => p
          | some e =>
            { health := p.health - e.damage_on_collision
              invincibility_timer := p.invincibility_timer.reset }) := by
  refine ⟨enemy_projectile_despawns_all plpos p projs, ?_, ?_, ?_⟩
  · intro hfin
    refine ⟨enemy_projectile_loop_not_finished plpos p projs hfin, ?_⟩
    unfold player_enemy_collision_system
    rw [hfin]
    simp
  · intro hfin
    exact enemy_projectile_first_hit plpos p projs hfin hdur
  · intro hfin
    unfold player_enemy_collision_system
    rw [hfin]
    simp only [if_true]
    exact player_enemy_first_hit plpos p enemies hfin hdur

/-- C4 witness: a finished 1-second timer lets a single touching
projectile deal its 8 damage and reset the timer. -/
theorem C4_witness :
    (enemy_projectile_collision_system ⟨0, 0⟩
        ⟨100, ⟨1, 1, false⟩⟩ [⟨7, ⟨0, 0⟩, 8⟩]).1 =
      ⟨92, ⟨0, 1, false⟩⟩ := by
  have h := (C4_invincibility_gate ⟨0, 0⟩ ⟨100, ⟨1, 1, false⟩⟩
    [⟨7, ⟨0, 0⟩, 8⟩] [] (by norm_num)).2.2.1 (by norm_num [TimerM.finished])
  rw [show List.find?
      (fun pr => enemy_projectile_player_collides pr.pos ⟨0, 0⟩)
      [(⟨7, ⟨0, 0⟩, 8⟩ : EnemyProjectile)] = some ⟨7, ⟨0, 0⟩, 8⟩ by
    norm_num [List.find?, enemy_projectile_player_collides, circle_hit,
      dist2, SPITTER_PROJECTILE_SIZE, PLAYER_SIZE]] at h
  rw [h]
  norm_num [TimerM.reset]

lemma inv_ticks_elapsed (deltas : List ℚ) (e : ℚ)
    (hnn : ∀ d ∈ deltas, 0 ≤ d) (hlt : e + deltas.sum < 1) (he : 0 ≤ e) :
    deltas.foldl player_invincibility_system ⟨100, ⟨e, 1, false⟩⟩ =
      ⟨100, ⟨e + deltas.sum, 1, false⟩⟩ := by
  induction deltas generalizing e with
  | nil => simp
  | cons d rest ih =>
    have hd : 0 ≤ d := hnn d (List.mem_cons_self d rest)
    have hrest : ∀ x ∈ rest, 0 ≤ x := fun x hx => hnn x (List.mem_cons_of_mem d hx)
    have hsum : 0 ≤ rest.sum := List.sum_nonneg hrest
    have hlt2 : (e + d) + rest.sum < 1 := by
      rw [List.sum_cons] at hlt
      linarith
    have hstep : player_invincibility_system ⟨100, ⟨e, 1, false⟩⟩ d =
        ⟨100, ⟨e + d, 1, false⟩⟩ := by
      have hef : e < 1 := by
        rw [List.sum_cons] at hlt
        linarith
      simp [player_invincibility_system, TimerM.finished, TimerM.tick,
        not_le.mpr hef]
    rw [List.foldl_cons, hstep, ih (e + d) hrest hlt2 (by linarith),
      List.sum_cons, ← add_assoc]

/-- C10: the freshly spawned player carries a 1.0-second one-shot
invincibility timer with a zero accumulator, so while the frame deltas
ticked into it total below one second, neither enemy contact nor enemy
projectiles damage the player, while touching projectiles are still
removed. -/
theorem C10_spawn_invincibility (deltas : List ℚ)
    (hnn : ∀ d ∈ deltas, 0 ≤ d) (hsum : deltas.sum < 1) :
    spawn_player.invincibility_timer = ⟨0, 1, false⟩ ∧
    ((deltas.foldl player_invincibility_system
        spawn_player).invincibility_timer.finished = false ∧
      ∀ (plpos : Vec2Q) (projs : List EnemyProjectile)
        (enemies : List EnemyContact),
        (enemy_projectile_collision_system plpos
            (deltas.foldl player_invincibility_system spawn_player) projs).1 =
          deltas.foldl player_invincibility_system spawn_player ∧
        (enemy_projectile_collision_system plpos
            (deltas.foldl player_invincibility_system spawn_player) projs).2 =
          (projs.filter
            (fun pr => enemy_projectile_player_collides pr.pos plpos)).map
              EnemyProjectile.id ∧
        player_enemy_collision_system plpos
            (deltas.foldl player_invincibility_system spawn_player) enemies =
          deltas.foldl player_invincibility_system spawn_player) := by
  have hfold : deltas.foldl player_invincibility_system spawn_player =
      ⟨100, ⟨0 + deltas.sum, 1, false⟩⟩ := by
    have := inv_ticks_elapsed deltas 0 hnn (by simpa using hsum) le_rfl
    simpa [spawn_player, TimerM.from_seconds] using this
  have hfin : (deltas.foldl player_invincibility_system
      spawn_player).invincibility_timer.finished = false := by
    rw [hfold]
    simp only [TimerM.finished, zero_add, decide_eq_false_iff_not, not_le]
    exact hsum
  refine ⟨rfl, hfin, ?_⟩
  intro plpos projs enemies
  refine ⟨enemy_projectile_loop_not_finished plpos _ projs hfin,
    enemy_projectile_despawns_all plpos _ projs, ?_⟩
  unfold player_enemy_collision_system
  rw [hfin]
  simp

/-- C10 witness: two ticks of half and a quarter second leave the fresh
player invincible and undamaged by a touching projectile. -/
theorem C10_witness :
    ((([1/2, 1/4] : List ℚ).foldl player_invincibility_system
        spawn_player).invincibility_timer.finished = false) ∧
    (enemy_projectile_collision_system ⟨0, 0⟩
        (([1/2, 1/4] : List ℚ).foldl player_invincibility_system spawn_player)
        [⟨3, ⟨0, 0⟩, 8⟩]).1 =
      ([1/2, 1/4] : List ℚ).foldl player_invincibility_system spawn_player := by
  have h := C10_spawn_invincibility [1/2, 1/4]
    (by intro d hd; fin_cases hd <;> norm_num) (by norm_num)
  exact ⟨h.2.1, (h.2.2 ⟨0, 0⟩ [⟨3, ⟨0, 0⟩, 8⟩] []).1⟩

/-- C2 counterexample: the aura damage test of aoe_aura_weapon_system
compares the center distance against the tracked aura radius alone. At
center distance 80, aura radius 75 and enemy bounding box 40 the claim
says the pair collides, because 80 < 75 + 40 / 2, yet the code applies
no damage. -/
theorem C2_counterexample :
    (0 : ℚ) ≤ 80 ∧ (80 : ℚ) ^ 2 = dist2 ⟨0, 0⟩ ⟨80, 0⟩ ∧
    (80 : ℚ) < 75 + 40 / 2 ∧
    aura_hits_enemy ⟨0, 0⟩ ⟨80, 0⟩ 75 = false := by
  norm_num [dist2, aura_hits_enemy]

/-- C2 amended: the pairwise collision tests (player bullet vs enemy,
player vs enemy, enemy projectile vs player, orbiter vs enemy, skill
projectile vs horror) collide exactly when the center distance is below
the sum of the two half-size radii, with the strict boundary excluded;
the aura test instead compares the center distance against the tracked
aura radius alone, ignoring the size of the target. -/
theorem C2_collision_radius_policy (p q : Vec2Q) (sz d r : ℚ)
    (hd : 0 ≤ d) (hdist : d ^ 2 = dist2 p q) (hsz : 0 ≤ sz) (hr : 0 ≤ r) :
    (bullet_enemy_collides p q sz = true ↔ d < BULLET_SIZE.x / 2 + sz / 2)
    ∧ (player_enemy_collides p q sz = true ↔ d < PLAYER_SIZE.x / 2 + sz / 2)
    ∧ (enemy_projectile_player_collides p q = true ↔
        d < SPITTER_PROJECTILE_SIZE.x / 2 + PLAYER_SIZE.x / 2)
    ∧ (orbiter_enemy_collides p q sz = true ↔
        d < ORBITER_SPRITE_SIZE.x / 2 + sz / 2)
    ∧ (∀ s : Vec2Q, 0 ≤ s.x → 0 ≤ s.y →
        (skill_projectile_collides p s q sz = true ↔
          d < max s.x s.y / 2 + sz / 2))
    ∧ (aura_hits_enemy p q r = true ↔ d < r)
    ∧ (d = BULLET_SIZE.x / 2 + sz / 2 → bullet_enemy_collides p q sz = false)
    ∧ (d = r → aura_hits_enemy p q r = false) := by
  have haura : aura_hits_enemy p q r = true ↔ d < r := by
    unfold aura_hits_enemy
    rw [decide_eq_true_iff, ← hdist]
    have h2 : d < r ↔ d ^ 2 < r ^ 2 := lt_iff_sq_lt hd hr
    exact h2.symm
  have hbul : bullet_enemy_collides p q sz = true ↔
      d < BULLET_SIZE.x / 2 + sz / 2 :=
    circle_hit_iff hd hdist (by norm_num [BULLET_SIZE]) (by linarith)
  refine ⟨hbul,
    circle_hit_iff hd hdist (by norm_num [PLAYER_SIZE]) (by linarith),
    circle_hit_iff hd hdist (by norm_num [SPITTER_PROJECTILE_SIZE])
      (by norm_num [PLAYER_SIZE]),
    circle_hit_iff hd hdist (by norm_num [ORBITER_SPRITE_SIZE]) (by linarith),
    ?_, haura, ?_, ?_⟩
  · intro s hx hy
    exact circle_hit_iff hd hdist
      (by positivity) (by linarith)
  · intro hb
    rw [← Bool.not_eq_true, hbul, hb]
    exact lt_irrefl _
  · intro hb
    rw [← Bool.not_eq_true, haura, hb]
    exact lt_irrefl _

/-- C2 witness: at center distance 5 a bullet against an enemy of
bounding box 2 collides exactly when 5 is below the radius sum. -/
theorem C2_witness :
    bullet_enemy_collides ⟨0, 0⟩ ⟨3, 4⟩ 2 = true ↔
      (5 : ℚ) < BULLET_SIZE.x / 2 + 2 / 2 :=
  (C2_collision_radius_policy ⟨0, 0⟩ ⟨3, 4⟩ 2 5 6 (by norm_num)
    (by norm_num [dist2]) (by norm_num) (by norm_num)).1

lemma credit_xp_level (p : PlayerXp) (amount : ℕ) :
    (credit_xp p amount).level = p.level := rfl

lemma credit_xp_clx (p : PlayerXp) (amount : ℕ) :
    (credit_xp p amount).current_level_xp =
      p.current_level_xp + scaled_gain p amount := rfl

lemma experience_to_next_level_congr {p q : PlayerXp}
    (h : p.level = q.level) :
    experience_to_next_level p = experience_to_next_level q := by
  simp [experience_to_next_level, h]

lemma experience_to_next_level_credit (p : PlayerXp) (amount : ℕ) :
    experience_to_next_level (credit_xp p amount) =
      experience_to_next_level p :=
  experience_to_next_level_congr rfl

/-- C5: a single XP award queues at most one LevelUp transition; an
award that reaches the threshold queues exactly one, raises the level
by exactly one and carries the surplus over, even when the surplus
already reaches the next threshold; that next threshold is then
resolved by the following award. -/
theorem C5_single_level_transition (p : PlayerXp) (amount : ℕ)
    (hlvl : 0 < p.level) :
    ((add_experience p amount).2 ≤ 1)
    ∧ (experience_to_next_level p ≤ p.current_level_xp + scaled_gain p amount →
        (add_experience p amount).2 = 1
        ∧ (add_experience p amount).1.level = p.level + 1
        ∧ (add_experience p amount).1.current_level_xp =
            p.current_level_xp + scaled_gain p amount -
              experience_to_next_level p)
    ∧ (p.current_level_xp + scaled_gain p amount < experience_to_next_level p →
        (add_experience p amount).2 = 0
        ∧ (add_experience p amount).1.level = p.level)
    ∧ (∀ q : PlayerXp, 0 < q.level →
        experience_to_next_level q ≤ q.current_level_xp + scaled_gain q 0 →
        (add_experience q 0).2 = 1) := by
  refine ⟨?_, ?_, ?_, ?_⟩
  · unfold add_experience
    split <;> simp
  · intro hcross
    unfold add_experience
    rw [if_pos]
    · refine ⟨rfl, rfl, ?_⟩
      rw [credit_xp_clx, experience_to_next_level_credit]
    · rw [experience_to_next_level_credit, credit_xp_clx, credit_xp_level]
      exact ⟨hcross, hlvl⟩
  · intro hshort
    unfold add_experience
    rw [if_neg]
    · exact ⟨rfl, rfl⟩
    · rw [experience_to_next_level_credit, credit_xp_clx, not_and]
      intro hc
      exact absurd hc (not_le.mpr hshort)
  · intro q hqlvl hqth
    unfold add_experience
    rw [if_pos]
    rw [experience_to_next_level_credit, credit_xp_clx, credit_xp_level]
    exact ⟨hqth, hqlvl⟩

/-- C5 witness: from level 1 with zero progress, awarding 260 XP at
multiplier one crosses the 100 threshold and the surplus of 160 already
reaches the next threshold of 150, yet exactly one transition is
queued, and the following award of 0 XP queues the next one. -/
theorem C5_witness :
    (add_experience ⟨0, 0, 1, 1⟩ 260).2 = 1
    ∧ (add_experience ⟨0, 0, 1, 1⟩ 260).1.level = 2
    ∧ (add_experience ⟨0, 0, 1, 1⟩ 260).1.current_level_xp = 160
    ∧ (add_experience (add_experience ⟨0, 0, 1, 1⟩ 260).1 0).2 = 1 := by
  have h := C5_single_level_transition ⟨0, 0, 1, 1⟩ 260 (by norm_num)
  have hact : scaled_gain ⟨0, 0, 1, 1⟩ 260 = 260 := by
    simp [scaled_gain]
  have hth : experience_to_next_level ⟨0, 0, 1, 1⟩ = 100 := by
    simp [experience_to_next_level, XP_FOR_LEVEL]
  have hcross := h.2.1 (by rw [hact, hth]; norm_num)
  have hlev2 : (add_experience ⟨0, 0, 1, 1⟩ 260).1.level = 2 := hcross.2.1
  have hclx : (add_experience ⟨0, 0, 1, 1⟩ 260).1.current_level_xp = 160 := by
    rw [hcross.2.2, hact, hth]
    norm_num
  refine ⟨hcross.1, hlev2, hclx, ?_⟩
  refine h.2.2.2 (add_experience ⟨0, 0, 1, 1⟩ 260).1 (by rw [hlev2]; norm_num) ?_
  have hnext : experience_to_next_level (add_experience ⟨0, 0, 1, 1⟩ 260).1
      = 150 := by
    simp [experience_to_next_level, hlev2, XP_FOR_LEVEL]
  rw [hnext, hclx]
  exact le_add_right (by norm_num)

/-- C8: whenever the difficulty timer elapses, the wave counter rises
by exactly one, the enemy cap rises by the increment of 10 but never
beyond 200, and the spawn interval is multiplied by the decay factor
9 / 10 but never drops below the floor of 3 / 10 seconds. -/
theorem C8_difficulty_step (s : DifficultyState) (delta : ℚ)
    (hp : s.difficulty_timer.paused = false)
    (hfire : s.difficulty_timer.duration ≤ s.difficulty_timer.elapsed + delta)
    (hw : 1 ≤ s.wave_number)
    (hcap : s.max_enemies =
      min (INITIAL_MAX_ENEMIES +
        (s.wave_number - 1) * MAX_ENEMIES_INCREMENT) 200) :
    (difficulty_scaling_system s delta).wave_number = s.wave_number + 1
    ∧ (difficulty_scaling_system s delta).max_enemies =
        min (s.max_enemies + MAX_ENEMIES_INCREMENT) 200
    ∧ (difficulty_scaling_system s delta).max_enemies ≤ 200
    ∧ (difficulty_scaling_system s delta).spawn_interval =
        max (s.spawn_interval * SPAWN_INTERVAL_DECREMENT_FACTOR)
          MIN_SPAWN_INTERVAL_SECONDS
    ∧ MIN_SPAWN_INTERVAL_SECONDS ≤
        (difficulty_scaling_system s delta).spawn_interval := by
  have hres : difficulty_scaling_system s delta =
      { wave_number := s.wave_number + 1
        difficulty_timer := (s.difficulty_timer.tick_repeating delta).1
        max_enemies :=
          min (INITIAL_MAX_ENEMIES +
            (s.wave_number + 1 - 1) * MAX_ENEMIES_INCREMENT) 200
        spawn_interval :=
          max (s.spawn_interval * SPAWN_INTERVAL_DECREMENT_FACTOR)
            MIN_SPAWN_INTERVAL_SECONDS } := by
    unfold difficulty_scaling_system
    rw [hp]
    have hjf : (s.difficulty_timer.tick_repeating delta).2 = true := by
      unfold TimerM.tick_repeating
      rw [hp]
      simp only [Bool.false_eq_true, if_false, if_pos hfire]
    simp only [Bool.false_eq_true, if_false, hjf, if_true]
  rw [hres]
  refine ⟨rfl, ?_, ?_, rfl, le_max_right _ _⟩
  · rw [hcap]
    simp only [INITIAL_MAX_ENEMIES, MAX_ENEMIES_INCREMENT]
    omega
  · exact min_le_right _ _

/-- C8 witness: from wave 1 with a fresh 30-second difficulty timer and
the initial 2-second spawn interval, a 30-second tick raises the wave
to 2, the cap from 20 to 30, and contracts the interval to 1.8. -/
theorem C8_witness :
    (difficulty_scaling_system ⟨1, ⟨0, 30, false⟩, 2, 20⟩ 30).wave_number = 2
    ∧ (difficulty_scaling_system ⟨1, ⟨0, 30, false⟩, 2, 20⟩ 30).max_enemies =
        min (20 + MAX_ENEMIES_INCREMENT) 200
    ∧ (difficulty_scaling_system ⟨1, ⟨0, 30, false⟩, 2, 20⟩ 30).spawn_interval =
        max (2 * SPAWN_INTERVAL_DECREMENT_FACTOR) MIN_SPAWN_INTERVAL_SECONDS := by
  have h := C8_difficulty_step ⟨1, ⟨0, 30, false⟩, 2, 20⟩ 30 rfl
    (by norm_num) (by norm_num)
    (by simp [INITIAL_MAX_ENEMIES, MAX_ENEMIES_INCREMENT])
  exact ⟨h.1, h.2.1, h.2.2.2.1⟩

/-- C3 counterexample: pressing restart in the GameOver state queues
the MainMenu app state, not InGame. -/
theorem C3_counterexample :
    (game_over_input_system true
        ⟨⟨5, 3, 7, ⟨100, 3600, false⟩, ⟨10, 30, false⟩⟩,
          ⟨1, 2, false⟩, 50, none⟩).next = some AppStateM.MainMenu
    ∧ some AppStateM.MainMenu ≠ some AppStateM.InGame := by
  exact ⟨rfl, by decide⟩

/-- C3 amended: restart input in the GameOver state performs the full
session reset, identical to the reset performed by the MainMenu start
input, but queues a transition to MainMenu rather than InGame; the
reset restores score, wave number, timers, the enemy cap and the player
stats to their initial values. -/
theorem C3_gameover_restart (s : SessionState) :
    (game_over_input_system true s).session = reset_for_new_game_session s
    ∧ (game_over_input_system true s).next = some AppStateM.MainMenu
    ∧ (game_over_input_system true s).despawned_player = true
    ∧ (main_menu_input_system true s).session = reset_for_new_game_session s
    ∧ (main_menu_input_system true s).next = some AppStateM.InGame
    ∧ (reset_for_new_game_session s).game_state.score = 0
    ∧ (reset_for_new_game_session s).game_state.wave_number = 1
    ∧ (reset_for_new_game_session s).game_state.enemy_count = 0
    ∧ (reset_for_new_game_session s).game_state.game_timer = ⟨0, 3600, false⟩
    ∧ (reset_for_new_game_session s).game_state.difficulty_timer =
        ⟨0, 30, false⟩
    ∧ (reset_for_new_game_session s).enemy_spawn_timer.elapsed = 0
    ∧ (reset_for_new_game_session s).enemy_spawn_timer.duration =
        INITIAL_SPAWN_INTERVAL_SECONDS
    ∧ (reset_for_new_game_session s).max_enemies = INITIAL_MAX_ENEMIES
    ∧ ∀ p : PlayerSession, s.player = some p →
        (reset_for_new_game_session s).player = some
          { speed := p.speed
            experience := 0
            current_level_xp := 0
            level := 1
            bullet_damage_bonus := 0
            projectile_speed_multiplier := 1
            projectile_piercing := 0
            xp_gain_multiplier := 1
            pickup_radius_multiplier := 1
            additional_projectiles := 0
            max_health := INITIAL_PLAYER_MAX_HEALTH
            health_regen_rate := 0
            health := INITIAL_PLAYER_MAX_HEALTH
            fire_rate := TimerM.from_seconds (1 / 2)
            aoe_aura := AoeAuraWeapon.default
            orbiting := OrbitingProjectileWeapon.default } := by
  refine ⟨rfl, rfl, rfl, rfl, rfl, rfl, rfl, rfl, rfl, rfl, rfl, rfl, rfl, ?_⟩
  intro p hp
  simp [reset_for_new_game_session, hp, reset_player_stats]

/-- C3 witness: a concrete mid-session state with a leveled player is
reset in full by the GameOver restart, which queues MainMenu. -/
theorem C3_witness :
    (game_over_input_system true
        ⟨⟨900, 4, 12, ⟨120, 3600, false⟩, ⟨11, 30, false⟩⟩, ⟨1, 1, false⟩, 60,
          some ⟨300, 500, 40, 3, 5, 2, 1, 2, 2, 1, 140, 1, 77,
            ⟨0, 1 / 4, false⟩,
            ⟨⟨0, 1 / 2, false⟩, 90, 5, true, none⟩,
            ⟨true, 3, 90, 1, 7, 3 / 4⟩⟩⟩).next = some AppStateM.MainMenu
    ∧ (reset_for_new_game_session
        ⟨⟨900, 4, 12, ⟨120, 3600, false⟩, ⟨11, 30, false⟩⟩, ⟨1, 1, false⟩, 60,
          some ⟨300, 500, 40, 3, 5, 2, 1, 2, 2, 1, 140, 1, 77,
            ⟨0, 1 / 4, false⟩,
            ⟨⟨0, 1 / 2, false⟩, 90, 5, true, none⟩,
            ⟨true, 3, 90, 1, 7, 3 / 4⟩⟩⟩).player = some
          { speed := 300
            experience := 0
            current_level_xp := 0
            level := 1
            bullet_damage_bonus := 0
            projectile_speed_multiplier := 1
            projectile_piercing := 0
            xp_gain_multiplier := 1
            pickup_radius_multiplier := 1
            additional_projectiles := 0
            max_health := INITIAL_PLAYER_MAX_HEALTH
            health_regen_rate := 0
            health := INITIAL_PLAYER_MAX_HEALTH
            fire_rate := TimerM.from_seconds (1 / 2)
            aoe_aura := AoeAuraWeapon.default
            orbiting := OrbitingProjectileWeapon.default } := by
  have h := C3_gameover_restart
    ⟨⟨900, 4, 12, ⟨120, 3600, false⟩, ⟨11, 30, false⟩⟩, ⟨1, 1, false⟩, 60,
      some ⟨300, 500, 40, 3, 5, 2, 1, 2, 2, 1, 140, 1, 77,
        ⟨0, 1 / 4, false⟩,
        ⟨⟨0, 1 / 2, false⟩, 90, 5, true, none⟩,
        ⟨true, 3, 90, 1, 7, 3 / 4⟩⟩⟩
  exact ⟨h.2.1, h.2.2.2.2.2.2.2.2.2.2.2.2.2 _ rfl⟩

/-- C9: reconciliation is a no-op when the weapon component did not
change or when the live count already matches the target; raising the
target from 0 to 3 spawns exactly the three orbiters at 0, 2 pi / 3 and
4 pi / 3 (120 degrees apart, continuing from the live count); lowering
the target from 3 to 1 despawns exactly the first two, leaving one. -/
theorem C9_orbiter_reconciliation (r rho c a b a2 : ℚ) (d : ℤ)
    (orbiters : List ℚ) (w : OrbitingProjectileWeapon) :
    manage_orbiters_system false w orbiters = orbiters
    ∧ manage_orbiters_system true ⟨true, 3, r, rho, d, c⟩ [] =
        [0, 2 / 3, 4 / 3]
    ∧ (manage_orbiters_system true ⟨true, 3, r, rho, d, c⟩ []).length = 3
    ∧ manage_orbiters_system true ⟨true, 1, r, rho, d, c⟩ [a, b, a2] = [a2]
    ∧ manage_orbiters_system true ⟨true, 2, r, rho, d, c⟩ [a, b] = [a, b] := by
  refine ⟨rfl, ?_, ?_, ?_, ?_⟩
  · simp [manage_orbiters_system, List.range_succ]
    norm_num
  · simp [manage_orbiters_system]
  · simp [manage_orbiters_system]
  · simp [manage_orbiters_system]

/-- C1 counterexample: the already-hit list of bullet_collision_system
is recreated every frame, so a piercing bullet that keeps overlapping
the same enemy damages it again on the next tick. Bullet 0 with pierce
counter 1 and damage 10 overlaps enemy 1 with health 100: the first
frame damages enemy 1 and consumes the pierce, the bullet survives, no
despawn is issued, and the second frame damages the same enemy 1 again,
leaving health 80. -/
theorem C1_counterexample :
    (bullet_collision_system [⟨0, ⟨0, 0⟩, 10, 1⟩]
        [⟨1, ⟨0, 0⟩, 100, 40⟩]).2.2.2 = [(0, [1])]
    ∧ (bullet_collision_system [⟨0, ⟨0, 0⟩, 10, 1⟩]
        [⟨1, ⟨0, 0⟩, 100, 40⟩]).1 = [⟨0, ⟨0, 0⟩, 10, 0⟩]
    ∧ (bullet_collision_system [⟨0, ⟨0, 0⟩, 10, 1⟩]
        [⟨1, ⟨0, 0⟩, 100, 40⟩]).2.1 = [⟨1, ⟨0, 0⟩, 90, 40⟩]
    ∧ (bullet_collision_system [⟨0, ⟨0, 0⟩, 10, 1⟩]
        [⟨1, ⟨0, 0⟩, 100, 40⟩]).2.2.1.despawned = []
    ∧ (bullet_collision_system [⟨0, ⟨0, 0⟩, 10, 0⟩]
        [⟨1, ⟨0, 0⟩, 90, 40⟩]).2.2.2 = [(0, [1])]
    ∧ (bullet_collision_system [⟨0, ⟨0, 0⟩, 10, 0⟩]
        [⟨1, ⟨0, 0⟩, 90, 40⟩]).2.1 = [⟨1, ⟨0, 0⟩, 80, 40⟩] := by
  have hc : bullet_enemy_collides ⟨0, 0⟩ ⟨0, 0⟩ 40 = true := by
    norm_num [bullet_enemy_collides, circle_hit, dist2, BULLET_SIZE]
  refine ⟨?_, ?_, ?_, ?_, ?_, ?_⟩ <;>
    simp [bullet_collision_system, bullet_pass, hc,
      BulletEffects.append, BulletEffects.empty]

/-- C7 counterexample: enemy despawns are deferred commands, so when
two bullets overlap the same enemy in one frame and the first hit is
lethal, the second bullet still sees the enemy and death handling fires
twice: the score rises by 20, two orbs spawn, two death sounds play and
two despawn requests are issued for enemy 1, where the claim promises
death handling exactly once. -/
theorem C7_counterexample :
    (bullet_collision_system [⟨0, ⟨0, 0⟩, 10, 0⟩, ⟨2, ⟨0, 0⟩, 10, 0⟩]
        [⟨1, ⟨0, 0⟩, 10, 40⟩]).2.2.1 =
      ⟨20, [⟨0, 0⟩, ⟨0, 0⟩], 2, 2, [1, 1]⟩ := by
  have hc : bullet_enemy_collides ⟨0, 0⟩ ⟨0, 0⟩ 40 = true := by
    norm_num [bullet_enemy_collides, circle_hit, dist2, BULLET_SIZE]
  simp [bullet_collision_system, bullet_pass, hc,
    BulletEffects.append, BulletEffects.empty]

lemma bullet_pass_spec (bpos : Vec2Q) (dmg : ℤ) :
    ∀ (enemies : List Enemy) (piercing : ℕ) (alreadyHit : List ℕ),
    (bullet_pass bpos dmg piercing alreadyHit enemies).hits.Nodup
    ∧ (∀ x ∈ (bullet_pass bpos dmg piercing alreadyHit enemies).hits,
        x ∉ alreadyHit)
    ∧ (bullet_pass bpos dmg piercing alreadyHit enemies).hits.length ≤
        piercing + 1
    ∧ (bullet_pass bpos dmg piercing alreadyHit enemies).eff.score =
        10 * (bullet_pass bpos dmg piercing alreadyHit enemies).eff.despawned.length
    ∧ (bullet_pass bpos dmg piercing alreadyHit enemies).eff.orbs.length =
        (bullet_pass bpos dmg piercing alreadyHit enemies).eff.despawned.length
    ∧ (bullet_pass bpos dmg piercing alreadyHit enemies).eff.death_sounds =
        (bullet_pass bpos dmg piercing alreadyHit enemies).eff.despawned.length
    ∧ (bullet_pass bpos dmg piercing alreadyHit enemies).eff.despawned.Sublist
        (bullet_pass bpos dmg piercing alreadyHit enemies).hits := by
  intro enemies
  induction enemies with
  | nil =>
    intro piercing alreadyHit
    simp [bullet_pass, BulletEffects.empty]
  | cons e rest ih =>
    intro piercing alreadyHit
    by_cases h1 : e.id ∈ alreadyHit
    · simpa [bullet_pass, h1] using ih piercing alreadyHit
    · by_cases h2 : bullet_enemy_collides bpos e.pos e.sizeX
      · by_cases h3 : 0 < piercing
        · have := ih (piercing - 1) (alreadyHit ++ [e.id])
          obtain ⟨hnd, hfr, hlen, hsc, horb, hds, hsub⟩ := this
          have hid : e.id ∉
              (bullet_pass bpos dmg (piercing - 1)
                (alreadyHit ++ [e.id]) rest).hits := by
            intro hmem
            exact hfr e.id hmem (by simp)
          simp only [bullet_pass, if_neg h1, h2, if_true, if_pos h3]
          refine ⟨?_, ?_, ?_, ?_, ?_, ?_, ?_⟩
          · exact List.nodup_cons.mpr ⟨hid, hnd⟩
          · intro x hx
            rcases List.mem_cons.mp hx with hx | hx
            · subst hx; exact h1
            · intro hxa
              exact hfr x hx (List.mem_append_left _ hxa)
          · simp only [List.length_cons]
            omega
          · by_cases h4 : e.health - dmg ≤ 0 <;>
              simp [BulletEffects.append, h4] <;> omega
          · by_cases h4 : e.health - dmg ≤ 0 <;>
              simp [BulletEffects.append, h4] <;> omega
          · by_cases h4 : e.health - dmg ≤ 0 <;>
              simp [BulletEffects.append, h4] <;> omega
          · by_cases h4 : e.health - dmg ≤ 0
            · simpa [BulletEffects.append, h4] using hsub.cons₂ e.id
            · simpa [BulletEffects.append, h4] using hsub.cons e.id
        · simp only [bullet_pass, if_neg h1, h2, if_true, if_neg h3]
          by_cases h4 : e.health - dmg ≤ 0
          · simp [h4, BulletEffects.append, h1]
          · simp [h4, BulletEffects.append, h1]
      · simpa [bullet_pass, h1, h2] using ih piercing alreadyHit

lemma skill_pass_spec (lookup : Option ProjectileSkillDef)
    (allH : List Horror) :
    ∀ (hs : List Horror) (p : SkillProjectile),
    (skill_pass lookup allH p hs).hits.Nodup
    ∧ (∀ x ∈ (skill_pass lookup allH p hs).hits, x ∉ p.already_hit)
    ∧ (∀ q, (skill_pass lookup allH p hs).outcome = some q →
        q.already_hit = p.already_hit ++ (skill_pass lookup allH p hs).hits
        ∧ q.bounces_left = p.bounces_left
        ∧ q.piercing_left + (skill_pass lookup allH p hs).hits.length =
            p.piercing_left)
    ∧ (skill_pass lookup allH p hs).hits.length ≤ p.piercing_left + 1 := by
  intro hs
  induction hs with
  | nil =>
    intro p
    refine ⟨by simp [skill_pass], by simp [skill_pass], ?_, by simp [skill_pass]⟩
    intro q hq
    simp only [skill_pass, Option.some.injEq] at hq
    subst hq
    simp [skill_pass]
  | cons h rest ih =>
    intro p
    by_cases h1 : h.id ∈ p.already_hit
    · simpa [skill_pass, h1] using ih p
    · by_cases h2 : skill_projectile_collides p.pos p.size h.pos h.sizeX
      · by_cases h3 : 0 < p.piercing_left
        · have := ih
            { p with
              piercing_left := p.piercing_left - 1
              already_hit := p.already_hit ++ [h.id] }
          obtain ⟨hnd, hfr, hout, hlen⟩ := this
          have hid : h.id ∉
              (skill_pass lookup allH
                { p with
                  piercing_left := p.piercing_left - 1
                  already_hit := p.already_hit ++ [h.id] } rest).hits := by
            intro hmem
            exact hfr h.id hmem (by simp)
          simp only [skill_pass, if_neg h1, h2, if_true, if_pos h3]
          refine ⟨List.nodup_cons.mpr ⟨hid, hnd⟩, ?_, ?_, ?_⟩
          · intro x hx
            rcases List.mem_cons.mp hx with hx | hx
            · subst hx; exact h1
            · intro hxa
              exact hfr x hx (List.mem_append_left _ hxa)
          · intro q hq
            obtain ⟨ha, hb, hc⟩ := hout q hq
            refine ⟨?_, by simpa using hb, ?_⟩
            · rw [ha]
              simp
            · simp only [List.length_cons]
              simp only at hc
              omega
          · simp only [List.length_cons]
            simp only at hlen
            omega
        · by_cases h4 : 0 < p.bounces_left
          · simp only [skill_pass, if_neg h1, h2, if_true, if_neg h3, if_pos h4]
            refine ⟨by simp, ?_, by intro q hq; simp at hq, by simp⟩
            intro x hx
            simp only [List.mem_singleton] at hx
            subst hx
            exact h1
          · simp only [skill_pass, if_neg h1, h2, if_true, if_neg h3, if_neg h4]
            refine ⟨by simp, ?_, by intro q hq; simp at hq, by simp⟩
            intro x hx
            simp only [List.mem_singleton] at hx
            subst hx
            exact h1
      · simpa [skill_pass, h1, h2] using ih p

lemma skill_step_spec (lookup : Option ProjectileSkillDef)
    (p : SkillProjectile) (horrors : List Horror) :
    (skill_projectile_collision_step lookup p horrors).hits.Nodup
    ∧ (∀ x ∈ (skill_projectile_collision_step lookup p horrors).hits,
        x ∉ p.already_hit)
    ∧ (∀ q, (skill_projectile_collision_step lookup p horrors).outcome = some q →
        q.already_hit = p.already_hit ++
          (skill_projectile_collision_step lookup p horrors).hits
        ∧ q.bounces_left = p.bounces_left
        ∧ q.piercing_left +
            (skill_projectile_collision_step lookup p horrors).hits.length =
            p.piercing_left)
    ∧ (skill_projectile_collision_step lookup p horrors).hits.length ≤
        p.piercing_left + 1 := by
  unfold skill_projectile_collision_step
  by_cases hs : p.piercing_left + p.bounces_left + 5 < p.already_hit.length
  · simp [hs]
  · simpa [hs] using skill_pass_spec lookup horrors horrors p

lemma skill_run_frames_spec (lookup : Option ProjectileSkillDef) :
    ∀ (frames : List (List Horror)) (p : SkillProjectile),
    (skill_run_frames lookup p frames).Nodup
    ∧ (∀ x ∈ skill_run_frames lookup p frames, x ∉ p.already_hit)
    ∧ (p.bounces_left = 0 →
        (skill_run_frames lookup p frames).length ≤ p.piercing_left + 1) := by
  intro frames
  induction frames with
  | nil =>
    intro p
    simp [skill_run_frames]
  | cons hs rest ih =>
    intro p
    obtain ⟨snd, sfr, sout, slen⟩ := skill_step_spec lookup p hs
    rcases hq : (skill_projectile_collision_step lookup p hs).outcome with _ | q
    · refine ⟨?_, ?_, ?_⟩
      · simpa [skill_run_frames, hq] using snd
      · intro x hx
        rw [skill_run_frames] at hx
        simp only [hq] at hx
        exact sfr x hx
      · intro hb
        rw [skill_run_frames]
        simp only [hq]
        exact slen
    · obtain ⟨hqa, hqb, hqc⟩ := sout q hq
      obtain ⟨ind, ifr, ilen⟩ := ih q
      have hrun : skill_run_frames lookup p (hs :: rest) =
          (skill_projectile_collision_step lookup p hs).hits ++
            skill_run_frames lookup q rest := by
        rw [skill_run_frames]
        simp only [hq]
      refine ⟨?_, ?_, ?_⟩
      · rw [hrun, List.nodup_append]
        refine ⟨snd, ind, ?_⟩
        intro x hx hx2
        have : x ∈ q.already_hit := by
          rw [hqa]
          exact List.mem_append_right _ hx
        exact ifr x hx2 this
      · intro x hx
        rw [hrun, List.mem_append] at hx
        rcases hx with hx | hx
        · exact sfr x hx
        · intro hxa
          exact ifr x hx (by rw [hqa]; exact List.mem_append_left _ hxa)
      · intro hb
        rw [hrun, List.length_append]
        have hqb0 : q.bounces_left = 0 := by rw [hqb, hb]
        have := ilen hqb0
        omega

lemma BulletEffects.append_empty (e : BulletEffects) :
    BulletEffects.append e BulletEffects.empty = e := by
  simp [BulletEffects.append, BulletEffects.empty]

lemma single_bullet_eff (b : Bullet) (enemies : List Enemy) :
    (bullet_collision_system [b] enemies).2.2.1 =
      (bullet_pass b.pos b.damage b.piercing_left [] enemies).eff := by
  simp [bullet_collision_system, BulletEffects.append_empty]

/-- C7 amended: death handling components always fire together, once
per lethal bullet hit: the score rises by ten per despawn request, and
orb spawns and death sounds match the despawn requests one for one;
within a frame where a single bullet strikes, no enemy receives two
despawn requests. Because despawns are deferred to the frame boundary,
a second bullet overlapping the dying enemy in the same frame repeats
death handling; with one bullet per frame the two-frame scenario holds:
an enemy with health 20 hit by damage 10 survives the first frame
untouched by death handling and dies exactly on the second hit, with
score plus ten once and one orb spawned at its last position. -/
theorem C7_death_handling (b : Bullet) (enemies : List Enemy) :
    ((bullet_collision_system [b] enemies).2.2.1.score =
        10 * (bullet_collision_system [b] enemies).2.2.1.despawned.length
      ∧ (bullet_collision_system [b] enemies).2.2.1.orbs.length =
        (bullet_collision_system [b] enemies).2.2.1.despawned.length
      ∧ (bullet_collision_system [b] enemies).2.2.1.death_sounds =
        (bullet_collision_system [b] enemies).2.2.1.despawned.length
      ∧ (bullet_collision_system [b] enemies).2.2.1.despawned.Nodup)
    ∧ (bullet_collision_system [⟨3, ⟨0, 0⟩, 10, 0⟩]
        [⟨1, ⟨0, 0⟩, 20, 40⟩]).2.2.1 = ⟨0, [], 0, 1, []⟩
    ∧ (bullet_collision_system [⟨3, ⟨0, 0⟩, 10, 0⟩]
        [⟨1, ⟨0, 0⟩, 20, 40⟩]).2.1 = [⟨1, ⟨0, 0⟩, 10, 40⟩]
    ∧ (bullet_collision_system [⟨4, ⟨0, 0⟩, 10, 0⟩]
        [⟨1, ⟨0, 0⟩, 10, 40⟩]).2.2.1 = ⟨10, [⟨0, 0⟩], 1, 1, [1]⟩
    ∧ apply_despawns (bullet_collision_system [⟨4, ⟨0, 0⟩, 10, 0⟩]
        [⟨1, ⟨0, 0⟩, 10, 40⟩]).2.1
        (bullet_collision_system [⟨4, ⟨0, 0⟩, 10, 0⟩]
          [⟨1, ⟨0, 0⟩, 10, 40⟩]).2.2.1.despawned = [] := by
  have hc : bullet_enemy_collides ⟨0, 0⟩ ⟨0, 0⟩ 40 = true := by
    norm_num [bullet_enemy_collides, circle_hit, dist2, BULLET_SIZE]
  obtain ⟨hnd, _, _, hsc, horb, hds, hsub⟩ :=
    bullet_pass_spec b.pos b.damage enemies b.piercing_left []
  refine ⟨⟨?_, ?_, ?_, ?_⟩, ?_, ?_, ?_, ?_⟩
  · rw [single_bullet_eff]; exact hsc
  · rw [single_bullet_eff]; exact horb
  · rw [single_bullet_eff]; exact hds
  · rw [single_bullet_eff]
    exact hnd.sublist hsub
  · simp [bullet_collision_system, bullet_pass, hc,
      BulletEffects.append, BulletEffects.empty]
  · simp [bullet_collision_system, bullet_pass, hc,
      BulletEffects.append, BulletEffects.empty]
  · simp [bullet_collision_system, bullet_pass, hc,
      BulletEffects.append, BulletEffects.empty]
  · simp [bullet_collision_system, bullet_pass, hc,
      BulletEffects.append, BulletEffects.empty, apply_despawns]

/-- C1 amended: a player bullet never damages the same enemy twice
within one frame and damages at most pierce + 1 enemies per frame, but
its already-hit list is per frame, so across subsequent ticks a
surviving piercing bullet can damage the same target again; a skill
projectile keeps its already-hit list for its whole lifetime, never
damages any target twice nor any target already in the list, and with
no bounces damages at most pierce + 1 distinct targets before
despawning. -/
theorem C1_already_hit_scope :
    (∀ (bpos : Vec2Q) (dmg : ℤ) (enemies : List Enemy) (piercing : ℕ),
      (bullet_pass bpos dmg piercing [] enemies).hits.Nodup
      ∧ (bullet_pass bpos dmg piercing [] enemies).hits.length ≤ piercing + 1)
    ∧ (∀ (lookup : Option ProjectileSkillDef) (p : SkillProjectile)
        (frames : List (List Horror)),
        (skill_run_frames lookup p frames).Nodup
        ∧ (∀ x ∈ skill_run_frames lookup p frames, x ∉ p.already_hit)
        ∧ (p.bounces_left = 0 →
            (skill_run_frames lookup p frames).length ≤ p.piercing_left + 1)) := by
  constructor
  · intro bpos dmg enemies piercing
    obtain ⟨hnd, _, hlen, _⟩ := bullet_pass_spec bpos dmg enemies piercing []
    exact ⟨hnd, hlen⟩
  · intro lookup p frames
    exact skill_run_frames_spec lookup frames p

/-- C1 witness: a concrete pierce-2 bolt with no bounces, run over two
frames with one fresh horror each, accumulates pairwise distinct hits,
at most three of them; the concrete single-frame bullet sweep is
duplicate free. -/
theorem C1_witness :
    (skill_run_frames none ⟨⟨0, 0⟩, ⟨10, 40⟩, ⟨1, 0⟩, 25, 2, 0, []⟩
        [[⟨5, ⟨0, 0⟩, 30, 40⟩], [⟨6, ⟨0, 0⟩, 30, 40⟩]]).Nodup
    ∧ (skill_run_frames none ⟨⟨0, 0⟩, ⟨10, 40⟩, ⟨1, 0⟩, 25, 2, 0, []⟩
        [[⟨5, ⟨0, 0⟩, 30, 40⟩], [⟨6, ⟨0, 0⟩, 30, 40⟩]]).length ≤ 3
    ∧ (bullet_pass ⟨0, 0⟩ 10 1 [] [⟨1, ⟨0, 0⟩, 100, 40⟩]).hits.Nodup := by
  refine ⟨(C1_already_hit_scope.2 none _ _).1,
    (C1_already_hit_scope.2 none ⟨⟨0, 0⟩, ⟨10, 40⟩, ⟨1, 0⟩, 25, 2, 0, []⟩
      [[⟨5, ⟨0, 0⟩, 30, 40⟩], [⟨6, ⟨0, 0⟩, 30, 40⟩]]).2.2 rfl,
    (C1_already_hit_scope.1 ⟨0, 0⟩ 10 [⟨1, ⟨0, 0⟩, 100, 40⟩] 1).1⟩

lemma not_candidate_of_skip {alreadyHit : List ℕ} {hitId : ℕ} {hitPos : Vec2Q}
    {h : Horror} (hskip : h.id = hitId ∨ h.id ∈ alreadyHit) :
    ¬ chain_candidate alreadyHit hitId hitPos h := by
  intro hc
  rcases hskip with hs | hs
  · exact hc.1 hs
  · exact hc.2.1 hs

lemma candidate_of_conds {alreadyHit : List ℕ} {hitId : ℕ} {hitPos : Vec2Q}
    {h : Horror} (hskip : ¬ (h.id = hitId ∨ h.id ∈ alreadyHit))
    (hd : dist2 h.pos hitPos < 250 ^ 2) :
    chain_candidate alreadyHit hitId hitPos h := by
  push_neg at hskip
  exact ⟨hskip.1, hskip.2, hd⟩

lemma chain_fold_none_iff (alreadyHit : List ℕ) (hitId : ℕ) (hitPos : Vec2Q) :
    ∀ (hs : List Horror) (best : Option (Horror × ℚ)),
    chain_fold alreadyHit hitId hitPos best hs = none ↔
      best = none ∧ ∀ x ∈ hs, ¬ chain_candidate alreadyHit hitId hitPos x := by
  intro hs
  induction hs with
  | nil =>
    intro best
    simp [chain_fold]
  | cons h rest ih =>
    intro best
    by_cases h1 : h.id = hitId ∨ h.id ∈ alreadyHit
    · rw [show chain_fold alreadyHit hitId hitPos best (h :: rest) =
          chain_fold alreadyHit hitId hitPos best rest by
        simp [chain_fold, h1]]
      rw [ih best]
      constructor
      · rintro ⟨hb, hall⟩
        refine ⟨hb, ?_⟩
        intro x hx
        rcases List.mem_cons.mp hx with hx | hx
        · subst hx; exact not_candidate_of_skip h1
        · exact hall x hx
      · rintro ⟨hb, hall⟩
        exact ⟨hb, fun x hx => hall x (List.mem_cons_of_mem _ hx)⟩
    · by_cases h2 : dist2 h.pos hitPos < 250 ^ 2
      · have hcand := candidate_of_conds h1 h2
        rcases best with _ | b
        · rw [show chain_fold alreadyHit hitId hitPos none (h :: rest) =
              chain_fold alreadyHit hitId hitPos
                (some (h, dist2 h.pos hitPos)) rest by
            simp [chain_fold, h1, h2]]
          rw [ih]
          simp only [reduceCtorEq, false_and, false_iff, not_and, not_forall]
          intro
          exact ⟨h, List.mem_cons_self h rest, by simpa using hcand⟩
        · by_cases h3 : dist2 h.pos hitPos < b.2
          · rw [show chain_fold alreadyHit hitId hitPos (some b) (h :: rest) =
                chain_fold alreadyHit hitId hitPos
                  (some (h, dist2 h.pos hitPos)) rest by
              simp [chain_fold, h1, h2, h3]]
            rw [ih]
            simp
          · rw [show chain_fold alreadyHit hitId hitPos (some b) (h :: rest) =
                chain_fold alreadyHit hitId hitPos (some b) rest by
              simp [chain_fold, h1, h2, h3]]
            rw [ih]
            simp
      · rw [show chain_fold alreadyHit hitId hitPos best (h :: rest) =
            chain_fold alreadyHit hitId hitPos best rest by
          simp [chain_fold, h1, h2]]
        rw [ih best]
        constructor
        · rintro ⟨hb, hall⟩
          refine ⟨hb, ?_⟩
          intro x hx
          rcases List.mem_cons.mp hx with hx | hx
          · subst hx
            intro hc
            exact h2 hc.2.2
          · exact hall x hx
        · rintro ⟨hb, hall⟩
          exact ⟨hb, fun x hx => hall x (List.mem_cons_of_mem _ hx)⟩

lemma chain_fold_min (alreadyHit : List ℕ) (hitId : ℕ) (hitPos : Vec2Q) :
    ∀ (hs : List Horror) (best : Option (Horror × ℚ)) (t : Horror × ℚ),
    chain_fold alreadyHit hitId hitPos best hs = some t →
    (∀ x ∈ hs, chain_candidate alreadyHit hitId hitPos x →
        t.2 ≤ dist2 x.pos hitPos)
    ∧ (∀ b, best = some b → t.2 ≤ b.2) := by
  intro hs
  induction hs with
  | nil =>
    intro best t ht
    simp only [chain_fold] at ht
    subst ht
    exact ⟨by simp, fun b hb => by rw [Option.some_inj] at hb; rw [hb]⟩
  | cons h rest ih =>
    intro best t ht
    by_cases h1 : h.id = hitId ∨ h.id ∈ alreadyHit
    · rw [show chain_fold alreadyHit hitId hitPos best (h :: rest) =
          chain_fold alreadyHit hitId hitPos best rest by
        simp [chain_fold, h1]] at ht
      obtain ⟨hmin, hbest⟩ := ih best t ht
      refine ⟨?_, hbest⟩
      intro x hx hc
      rcases List.mem_cons.mp hx with hx | hx
      · subst hx; exact absurd hc (not_candidate_of_skip h1)
      · exact hmin x hx hc
    · by_cases h2 : dist2 h.pos hitPos < 250 ^ 2
      · rcases best with _ | b
        · rw [show chain_fold alreadyHit hitId hitPos none (h :: rest) =
              chain_fold alreadyHit hitId hitPos
                (some (h, dist2 h.pos hitPos)) rest by
            simp [chain_fold, h1, h2]] at ht
          obtain ⟨hmin, hbest⟩ := ih _ t ht
          have hth : t.2 ≤ dist2 h.pos hitPos := hbest _ rfl
          refine ⟨?_, by simp⟩
          intro x hx hc
          rcases List.mem_cons.mp hx with hx | hx
          · subst hx; exact hth
          · exact hmin x hx hc
        · by_cases h3 : dist2 h.pos hitPos < b.2
          · rw [show chain_fold alreadyHit hitId hitPos (some b) (h :: rest) =
                chain_fold alreadyHit hitId hitPos
                  (some (h, dist2 h.pos hitPos)) rest by
              simp [chain_fold, h1, h2, h3]] at ht
            obtain ⟨hmin, hbest⟩ := ih _ t ht
            have hth : t.2 ≤ dist2 h.pos hitPos := hbest _ rfl
            refine ⟨?_, ?_⟩
            · intro x hx hc
              rcases List.mem_cons.mp hx with hx | hx
              · subst hx; exact hth
              · exact hmin x hx hc
            · intro b2 hb2
              rw [Option.some_inj] at hb2
              subst hb2
              exact le_trans hth (le_of_lt h3)
          · rw [show chain_fold alreadyHit hitId hitPos (some b) (h :: rest) =
                chain_fold alreadyHit hitId hitPos (some b) rest by
              simp [chain_fold, h1, h2, h3]] at ht
            obtain ⟨hmin, hbest⟩ := ih _ t ht
            have htb : t.2 ≤ b.2 := hbest _ rfl
            refine ⟨?_, ?_⟩
            · intro x hx hc
              rcases List.mem_cons.mp hx with hx | hx
              · subst hx
                exact le_trans htb (not_lt.mp h3)
              · exact hmin x hx hc
            · intro b2 hb2
              rw [Option.some_inj] at hb2
              subst hb2
              exact htb
      · rw [show chain_fold alreadyHit hitId hitPos best (h :: rest) =
            chain_fold alreadyHit hitId hitPos best rest by
          simp [chain_fold, h1, h2]] at ht
        obtain ⟨hmin, hbest⟩ := ih best t ht
        refine ⟨?_, hbest⟩
        intro x hx hc
        rcases List.mem_cons.mp hx with hx | hx
        · subst hx; exact absurd hc.2.2 h2
        · exact hmin x hx hc

lemma chain_fold_mem (alreadyHit : List ℕ) (hitId : ℕ) (hitPos : Vec2Q) :
    ∀ (hs : List Horror) (best : Option (Horror × ℚ)) (t : Horror × ℚ),
    chain_fold alreadyHit hitId hitPos best hs = some t →
    best = some t ∨
      (t.1 ∈ hs ∧ chain_candidate alreadyHit hitId hitPos t.1
        ∧ t.2 = dist2 t.1.pos hitPos) := by
  intro hs
  induction hs with
  | nil =>
    intro best t ht
    simp only [chain_fold] at ht
    exact Or.inl ht
  | cons h rest ih =>
    intro best t ht
    by_cases h1 : h.id = hitId ∨ h.id ∈ alreadyHit
    · rw [show chain_fold alreadyHit hitId hitPos best (h :: rest) =
          chain_fold alreadyHit hitId hitPos best rest by
        simp [chain_fold, h1]] at ht
      rcases ih best t ht with hb | ⟨hm, hc, he⟩
      · exact Or.inl hb
      · exact Or.inr ⟨List.mem_cons_of_mem _ hm, hc, he⟩
    · by_cases h2 : dist2 h.pos hitPos < 250 ^ 2
      · have hcand := candidate_of_conds h1 h2
        rcases best with _ | b
        · rw [show chain_fold alreadyHit hitId hitPos none (h :: rest) =
              chain_fold alreadyHit hitId hitPos
                (some (h, dist2 h.pos hitPos)) rest by
            simp [chain_fold, h1, h2]] at ht
          rcases ih _ t ht with hb | ⟨hm, hc, he⟩
          · rw [Option.some_inj] at hb
            subst hb
            exact Or.inr ⟨List.mem_cons_self h rest, hcand, rfl⟩
          · exact Or.inr ⟨List.mem_cons_of_mem _ hm, hc, he⟩
        · by_cases h3 : dist2 h.pos hitPos < b.2
          · rw [show chain_fold alreadyHit hitId hitPos (some b) (h :: rest) =
                chain_fold alreadyHit hitId hitPos
                  (some (h, dist2 h.pos hitPos)) rest by
              simp [chain_fold, h1, h2, h3]] at ht
            rcases ih _ t ht with hb | ⟨hm, hc, he⟩
            · rw [Option.some_inj] at hb
              subst hb
              exact Or.inr ⟨List.mem_cons_self h rest, hcand, rfl⟩
            · exact Or.inr ⟨List.mem_cons_of_mem _ hm, hc, he⟩
          · rw [show chain_fold alreadyHit hitId hitPos (some b) (h :: rest) =
                chain_fold alreadyHit hitId hitPos (some b) rest by
              simp [chain_fold, h1, h2, h3]] at ht
            rcases ih _ t ht with hb | ⟨hm, hc, he⟩
            · exact Or.inl hb
            · exact Or.inr ⟨List.mem_cons_of_mem _ hm, hc, he⟩
      · rw [show chain_fold alreadyHit hitId hitPos best (h :: rest) =
            chain_fold alreadyHit hitId hitPos best rest by
          simp [chain_fold, h1, h2]] at ht
        rcases ih best t ht with hb | ⟨hm, hc, he⟩
        · exact Or.inl hb
        · exact Or.inr ⟨List.mem_cons_of_mem _ hm, hc, he⟩

lemma skill_pass_append_skip (lookup : Option ProjectileSkillDef)
    (allH : List Horror) (p : SkillProjectile) :
    ∀ (pre rest : List Horror),
    (∀ x ∈ pre, x.id ∈ p.already_hit ∨
      skill_projectile_collides p.pos p.size x.pos x.sizeX = false) →
    (skill_pass lookup allH p (pre ++ rest)).hits =
        (skill_pass lookup allH p rest).hits
    ∧ (skill_pass lookup allH p (pre ++ rest)).successors =
        (skill_pass lookup allH p rest).successors
    ∧ (skill_pass lookup allH p (pre ++ rest)).outcome =
        (skill_pass lookup allH p rest).outcome := by
  intro pre
  induction pre with
  | nil =>
    intro rest _
    simp
  | cons x pre ih =>
    intro rest hpre
    have hx := hpre x (List.mem_cons_self x pre)
    have hrest : ∀ y ∈ pre, y.id ∈ p.already_hit ∨
        skill_projectile_collides p.pos p.size y.pos y.sizeX = false :=
      fun y hy => hpre y (List.mem_cons_of_mem _ hy)
    obtain ⟨ha, hb, hc⟩ := ih rest hrest
    by_cases hmem : x.id ∈ p.already_hit
    · refine ⟨?_, ?_, ?_⟩ <;>
        simpa [skill_pass, hmem] using by first | exact ha | exact hb | exact hc
    · have hcol : skill_projectile_collides p.pos p.size x.pos x.sizeX = false := by
        rcases hx with hx | hx
        · exact absurd hx hmem
        · exact hx
      refine ⟨?_, ?_, ?_⟩ <;>
        simpa [skill_pass, hmem, hcol] using
          by first | exact ha | exact hb | exact hc

/-- C6: when a skill projectile with no pierce left and at least one
bounce left lands its hit (the first colliding, not yet hit horror of
the sweep), it records the hit, despawns, and spawns exactly one
successor at the hit position exactly when the chain search finds a
candidate: the successor aims at a nearest not already hit target
within the 250-unit chain radius, carries the decremented bounce count
and an already-hit list seeded with that target; with no candidate in
radius the original despawns with no successor. -/
theorem C6_bounce_chain (dfn : ProjectileSkillDef) (p : SkillProjectile)
    (pre rest : List Horror) (h : Horror)
    (hpl : p.piercing_left = 0) (hb : 0 < p.bounces_left)
    (hsafe : ¬ (p.piercing_left + p.bounces_left + 5 < p.already_hit.length))
    (hpre : ∀ x ∈ pre, x.id ∈ p.already_hit ∨
        skill_projectile_collides p.pos p.size x.pos x.sizeX = false)
    (hh1 : h.id ∉ p.already_hit)
    (hh2 : skill_projectile_collides p.pos p.size h.pos h.sizeX = true) :
    (skill_projectile_collision_step (some dfn) p
        (pre ++ h :: rest)).outcome = none
    ∧ (skill_projectile_collision_step (some dfn) p
        (pre ++ h :: rest)).hits = [h.id]
    ∧ (chain_target (p.already_hit ++ [h.id]) h.id h.pos (pre ++ h :: rest) =
          none ↔
        ∀ x ∈ pre ++ h :: rest,
          ¬ chain_candidate (p.already_hit ++ [h.id]) h.id h.pos x)
    ∧ (chain_target (p.already_hit ++ [h.id]) h.id h.pos (pre ++ h :: rest) =
          none →
        (skill_projectile_collision_step (some dfn) p
          (pre ++ h :: rest)).successors = [])
    ∧ (∀ t, chain_target (p.already_hit ++ [h.id]) h.id h.pos
          (pre ++ h :: rest) = some t →
        (skill_projectile_collision_step (some dfn) p
            (pre ++ h :: rest)).successors =
          [{ pos := h.pos
             size := dfn.size
             aim := ⟨t.1.pos.x - h.pos.x, t.1.pos.y - h.pos.y⟩
             damage := p.damage
             piercing_left := dfn.piercing
             bounces_left := p.bounces_left - 1
             already_hit := [t.1.id] }]
        ∧ t.1 ∈ pre ++ h :: rest
        ∧ chain_candidate (p.already_hit ++ [h.id]) h.id h.pos t.1
        ∧ ∀ x ∈ pre ++ h :: rest,
            chain_candidate (p.already_hit ++ [h.id]) h.id h.pos x →
            dist2 t.1.pos h.pos ≤ dist2 x.pos h.pos) := by
  have hstep : skill_projectile_collision_step (some dfn) p
      (pre ++ h :: rest) = skill_pass (some dfn) (pre ++ h :: rest) p
      (pre ++ h :: rest) := by
    unfold skill_projectile_collision_step
    rw [if_neg hsafe]
  obtain ⟨ea, eb, ec⟩ := skill_pass_append_skip (some dfn)
    (pre ++ h :: rest) p pre (h :: rest) hpre
  have hnp : ¬ 0 < p.piercing_left := by omega
  have hhead : skill_pass (some dfn) (pre ++ h :: rest) p (h :: rest) =
      ⟨{ h with health := h.health - p.damage } :: rest, [h.id],
        (match chain_target (p.already_hit ++ [h.id]) h.id h.pos
            (pre ++ h :: rest) with
          | some t => spawn_chained (some dfn) p (p.bounces_left - 1) h.pos t.1
          | none => []), none⟩ := by
    simp only [skill_pass, if_neg hh1, hh2, if_true, if_neg hnp, if_pos hb]
  refine ⟨?_, ?_, ?_, ?_, ?_⟩
  · rw [hstep, ec, hhead]
  · rw [hstep, ea, hhead]
  · unfold chain_target
    rw [chain_fold_none_iff]
    simp
  · intro hnone
    rw [hstep, eb, hhead]
    simp only [hnone]
  · intro t ht
    have hmem := chain_fold_mem (p.already_hit ++ [h.id]) h.id h.pos
      (pre ++ h :: rest) none t ht
    rcases hmem with hbad | ⟨hm, hc, he⟩
    · exact absurd hbad (by simp)
    · have hmin := (chain_fold_min (p.already_hit ++ [h.id]) h.id h.pos
        (pre ++ h :: rest) none t ht).1
      refine ⟨?_, hm, hc, ?_⟩
      · rw [hstep, eb, hhead]
        simp only [ht]
        rfl
      · intro x hx hcx
        rw [← he]
        exact hmin x hx hcx

/-- C6 witness: an eldritch bolt with one bounce and no pierce hits the
horror at the origin; the chain search over the two horrors finds the
one at distance 100 within the 250-unit radius and spawns exactly one
successor seeded with it. -/
theorem C6_witness :
    (skill_projectile_collision_step (some ⟨650, ⟨12, 28⟩, 5 / 2, 0⟩)
        ⟨⟨0, 0⟩, ⟨12, 28⟩, ⟨1, 0⟩, 25, 0, 1, []⟩
        ([] ++ ⟨1, ⟨0, 0⟩, 50, 40⟩ :: [⟨2, ⟨100, 0⟩, 50, 40⟩])).outcome = none
    ∧ (skill_projectile_collision_step (some ⟨650, ⟨12, 28⟩, 5 / 2, 0⟩)
        ⟨⟨0, 0⟩, ⟨12, 28⟩, ⟨1, 0⟩, 25, 0, 1, []⟩
        ([] ++ ⟨1, ⟨0, 0⟩, 50, 40⟩ :: [⟨2, ⟨100, 0⟩, 50, 40⟩])).hits = [1]
    ∧ (skill_projectile_collision_step (some ⟨650, ⟨12, 28⟩, 5 / 2, 0⟩)
        ⟨⟨0, 0⟩, ⟨12, 28⟩, ⟨1, 0⟩, 25, 0, 1, []⟩
        ([] ++ ⟨1, ⟨0, 0⟩, 50, 40⟩ :: [⟨2, ⟨100, 0⟩, 50, 40⟩])).successors =
      [{ pos := ⟨0, 0⟩
         size := ⟨12, 28⟩
         aim := ⟨100 - 0, 0 - 0⟩
         damage := 25
         piercing_left := 0
         bounces_left := 1 - 1
         already_hit := [2] }] := by
  have hcol : skill_projectile_collides ⟨0, 0⟩ ⟨12, 28⟩ ⟨0, 0⟩ 40 = true := by
    norm_num [skill_projectile_collides, circle_hit, dist2]
  have h := C6_bounce_chain ⟨650, ⟨12, 28⟩, 5 / 2, 0⟩
    ⟨⟨0, 0⟩, ⟨12, 28⟩, ⟨1, 0⟩, 25, 0, 1, []⟩
    [] [⟨2, ⟨100, 0⟩, 50, 40⟩] ⟨1, ⟨0, 0⟩, 50, 40⟩
    rfl (by norm_num) (by norm_num) (by intro x hx; simp at hx)
    (by simp) hcol
  have hct : chain_target ([] ++ [1]) 1 ⟨0, 0⟩
      ([] ++ ⟨1, ⟨0, 0⟩, 50, 40⟩ :: [⟨2, ⟨100, 0⟩, 50, 40⟩]) =
      some (⟨2, ⟨100, 0⟩, 50, 40⟩, dist2 ⟨100, 0⟩ ⟨0, 0⟩) := by
    unfold chain_target chain_fold
    norm_num [dist2, chain_fold]
  obtain ⟨hsucc, _, _, _⟩ := h.2.2.2.2 (⟨2, ⟨100, 0⟩, 50, 40⟩,
    dist2 ⟨100, 0⟩ ⟨0, 0⟩) hct
  exact ⟨h.1, h.2.1, hsucc⟩

end BHG
